import Mathlib

/-!
Shallow embedding of Komac's installer-analysis core (src/analysis) in Lean 4,
together with theorems checking the natural-language specification against it.

Conventions:
* Machine bytes are `Nat` values below 256; wherever the Rust code does `u8`
  arithmetic the embedding normalizes with `% 256` explicitly.
* `i64` values are `Int` with explicit two's-complement wrapping (`wrap64`).
* Fallible Rust code (`Result`) becomes `Except` / `Option`.
* Definitions follow the Rust sources file by file; definitions for repository
  or collaborator code that is not part of the analysed sources are marked
  `Modelled from the spec:` in their doc comment.
-/

namespace Komac

/-! ## Byte primitives -/

/-- `u8::rotate_left(4)`: swap the two nibbles of a byte. -/
def rotl4 (b : Nat) : Nat := (b % 16) * 16 + (b % 256) / 16

/-- `u8` bitwise NOT. -/
def bnot8 (b : Nat) : Nat := 255 - b % 256

/-- `u8` XOR (inputs are normalized to bytes first). -/
def xor8 (a b : Nat) : Nat := (a % 256) ^^^ (b % 256)

/-! ## String and character helpers (used across the embedded sources) -/

/-- The apostrophe character (quote delimiter in `System::Call` literals). -/
def cQuote : Char := Char.ofNat 39

/-- The double-quote character. -/
def cDQuote : Char := Char.ofNat 34

/-- The backquote character. -/
def cBacktick : Char := Char.ofNat 96

/-- `str::contains` for a literal substring: some suffix of `hay` starts with
`needle`. -/
def containsSubstr (hay needle : String) : Bool :=
  hay.data.tails.any (fun t => needle.data.isPrefixOf t)

/-- `str::to_ascii_lowercase` (`Char.toLower` lowers exactly the ASCII range
A–Z, matching Rust's ASCII lowercasing). -/
def toLowerAscii (s : String) : String := String.mk (s.data.map Char.toLower)

/-- `str::eq_ignore_ascii_case`. -/
def eqIgnoreAsciiCase (a b : String) : Bool := toLowerAscii a == toLowerAscii b

/-- `str::trim` on a character list (ASCII whitespace; the embedded inputs are
ASCII). Structural, so it reduces inside the kernel. -/
def trimChars (l : List Char) : List Char :=
  ((l.dropWhile Char.isWhitespace).reverse.dropWhile Char.isWhitespace).reverse

/-- `str::trim` for strings, via `trimChars`. -/
def strTrim (s : String) : String := String.mk (trimChars s.data)

/-- `str::parse::<usize>` / `str::parse::<u32>` digit parsing: an optional `+`
sign followed by one or more ASCII digits (Rust's unsigned `FromStr`). -/
def parseNat (s : String) : Option Nat :=
  let l := if s.data.headD ' ' = '+' then s.data.tail else s.data
  if l ≠ [] ∧ l.all Char.isDigit then
    some (l.foldl (fun acc c => acc * 10 + (c.toNat - 48)) 0)
  else none

/-- ASCII decoding of raw bytes (`String::from_utf8_lossy` restricted to the
ASCII range; all inputs the claims exercise are ASCII). -/
def bytesToString (l : List Nat) : String := String.mk (l.map (fun b => Char.ofNat (b % 256)))

/-- UTF-16LE decoding restricted to the basic plane without surrogates
(`encoding_rs::UTF_16LE` on the inputs the claims exercise); a dangling odd
byte is dropped. -/
def utf16leDecode : List Nat → List Char
  | lo :: hi :: rest => Char.ofNat (lo % 256 + 256 * (hi % 256)) :: utf16leDecode rest
  | _ => []

/-- `str::trim_matches('\0')` over a character list. -/
def trimNulChars (l : List Char) : List Char :=
  ((l.dropWhile (·.toNat = 0)).reverse.dropWhile (·.toNat = 0)).reverse

/-- Little-endian `u16` byte encoding. -/
def u16le (n : Nat) : List Nat := [n % 256, n / 256 % 256]

/-- Little-endian `u32` byte encoding (truncating like `as u32`). -/
def u32le (n : Nat) : List Nat :=
  [n % 256, n / 256 % 256, n / 65536 % 256, n / 16777216 % 256]

/-! ## InstallShield payload decode (installshield/file.rs) -/

/-- The fixed XOR magic from `File::decrypt`. -/
def XOR_MAGIC : List Nat := [0x13, 0x35, 0x86, 0x07]

/-- The per-entry key: the filename's bytes XORed position-cyclically against
`XOR_MAGIC` (from `File::decrypt`). -/
def keyFromName (name : List Nat) : List Nat :=
  name.enum.map fun p => xor8 p.2 (XOR_MAGIC.getD (p.1 % XOR_MAGIC.length) 0)

/-- One byte of `decode_slice`: `!(key_byte ^ byte.rotate_left(4))`. -/
def decodeByte (k b : Nat) : Nat := bnot8 (xor8 k (rotl4 b))

/-- `decode_slice(data, key, key_offset)` from installshield/file.rs: each byte
at index `i` is decoded with key byte `key[(key_offset + i) % key.len()]`. -/
def decodeSlice (key : List Nat) : Nat → List Nat → List Nat
  | _, [] => []
  | off, b :: rest =>
      decodeByte (key.getD (off % key.length) 0) b :: decodeSlice key (off + 1) rest

/-- Inverse of `decodeByte` (this direction does not appear in the code; it is
the mathematical inverse used to state the bijection): rotate-right-by-4 of
`key_byte XOR NOT byte`, and on 8 bits rotate-right-by-4 equals `rotl4`. -/
def encodeByte (k b : Nat) : Nat := rotl4 (xor8 k (bnot8 b))

/-- Inverse of `decodeSlice`, applying `encodeByte` with the same rotating key. -/
def encodeSlice (key : List Nat) : Nat → List Nat → List Nat
  | _, [] => []
  | off, b :: rest =>
      encodeByte (key.getD (off % key.length) 0) b :: encodeSlice key (off + 1) rest

/-! ## NSIS `System::Int64Op` (nsis/entry/system/int64op.rs) -/

/-- Reduce an integer into the `i64` value range by two's-complement
wraparound. -/
def wrap64 (x : Int) : Int := Int.emod (x + 2 ^ 63) (2 ^ 64) - 2 ^ 63

/-- `i64::wrapping_shl` / `>>` / `>>>` shift amount: `arg2 as u32` then masked
to six bits, which equals `arg2` mod 64 in two's complement. -/
def shiftAmt (b : Int) : Nat := (Int.emod b 64).toNat

/-- Reinterpret an `i64` value as `u64` (two's complement). -/
def toU64 (x : Int) : Int := Int.emod x (2 ^ 64)

/-- `i64` bitwise operations via the two's-complement bit pattern. -/
def i64bit (f : Nat → Nat → Nat) (a b : Int) : Int :=
  wrap64 ((f (toU64 a).toNat (toU64 b).toNat : Nat) : Int)

/-- `evaluate_operation` from int64op.rs: evaluate one `Int64Op` operator over
one or two `i64` operands with two's-complement wraparound, division and
modulo by zero yielding 0, `>>` arithmetic and `>>>` logical shift; unknown
operators return the first operand. -/
def evaluate_operation (operation : String) (arg1 : Int) (arg2 : Option Int) : String :=
  match arg2 with
  | none =>
      let result : Int :=
        match strTrim operation with
        | "~" => -arg1 - 1
        | "!" => if arg1 = 0 then 1 else 0
        | _ => arg1
      toString result
  | some arg2 =>
      let result : Int :=
        match strTrim operation with
        | "+" => wrap64 (arg1 + arg2)
        | "-" => wrap64 (arg1 - arg2)
        | "*" => wrap64 (arg1 * arg2)
        | "/" => if arg2 ≠ 0 then wrap64 (Int.tdiv arg1 arg2) else 0
        | "%" => if arg2 ≠ 0 then Int.tmod arg1 arg2 else 0
        | "<<" => wrap64 (arg1 * 2 ^ shiftAmt arg2)
        | ">>" => Int.fdiv arg1 (2 ^ shiftAmt arg2)
        | ">>>" => wrap64 (Int.tdiv (toU64 arg1) (2 ^ shiftAmt arg2))
        | "|" => i64bit Nat.lor arg1 arg2
        | "&" => i64bit Nat.land arg1 arg2
        | "^" => i64bit Nat.xor arg1 arg2
        | "||" => if arg1 ≠ 0 ∨ arg2 ≠ 0 then 1 else 0
        | "&&" => if arg1 ≠ 0 ∧ arg2 ≠ 0 then 1 else 0
        | "<" => if arg1 < arg2 then 1 else 0
        | "=" => if arg1 = arg2 then 1 else 0
        | ">" => if arg2 < arg1 then 1 else 0
        | _ => arg1
      toString result

/-! ## Data model: PE input and winget-types installer records

The PE reader (`yara_x::mods::PE`) and the `winget_types` manifest types are
external collaborators of the analysed sources; the structures below model
exactly the fields the analysed code reads or writes. -/

/-- One entry of `pe.version_info_list` (key/optional value). -/
structure KeyValue where
  key : String
  value : Option String
  deriving Repr, DecidableEq

/-- PE resource type tags used by icons.rs. -/
inductive ResourceType where
  | icon
  | groupIcon
  | other
  deriving Repr, DecidableEq

/-- One entry of `pe.resources` (type, numeric id, file offset, length). -/
structure Resource where
  rType : ResourceType
  rid : Nat
  offset : Nat
  length : Nat
  deriving Repr, DecidableEq

/-- The PE fields read by exe.rs, installshield/mod.rs and icons.rs. -/
structure PE where
  machine : Nat
  version_info_list : List KeyValue
  version_info : List (String × String)
  overlayOffset : Option Nat
  resources : List Resource
  deriving Repr, DecidableEq

/-- Map lookup on `pe.version_info`. -/
def PE.viGet (pe : PE) (key : String) : Option String :=
  (pe.version_info.find? (fun p => p.1 == key)).map (·.2)

/-- `winget_types::installer::Architecture` (the variants the analysed code
produces). Modelled from the spec: the manifest types are external. -/
inductive Architecture where
  | x86
  | x64
  | arm64
  | arm
  | neutral
  deriving Repr, DecidableEq

/-- Modelled from the spec: `Architecture::from_machine` over the PE machine
type (invariant: "architecture is always resolved (falls back to container
machine type)"); maps the standard PE machine constants. -/
def fromMachine (machine : Nat) : Architecture :=
  if machine = 0x14c then .x86
  else if machine = 0x8664 then .x64
  else if machine = 0xaa64 then .arm64
  else if machine = 0x1c0 ∨ machine = 0x1c4 then .arm
  else .neutral

/-- `winget_types::installer::InstallerType` (variants the analysed code
produces). -/
inductive InstallerType where
  | exe
  | portable
  deriving Repr, DecidableEq

/-- `winget_types::installer::Scope`. -/
inductive Scope where
  | machine
  | user
  deriving Repr, DecidableEq

/-- `winget_types::installer::ReturnResponse` variants used by
installshield/return_codes.rs. -/
inductive ReturnResponse where
  | cancelledByUser
  | invalidParameter
  | systemNotSupported
  | diskFull
  | rebootRequiredToFinish
  | contactSupport
  | installInProgress
  | blockedByPolicy
  | alreadyInstalled
  | rebootInitiated
  deriving Repr, DecidableEq

/-- One `(exit code → outcome)` mapping. -/
structure ExpectedReturnCode where
  code : Int
  response : ReturnResponse
  deriving Repr, DecidableEq

/-- `winget_types::installer::InstallerSwitches` (fields the analysed code
sets; `none` is an unset switch, matching the builder's defaults). -/
structure InstallerSwitches where
  silent : Option String := none
  silentWithProgress : Option String := none
  installLocation : Option String := none
  log : Option String := none
  repair : Option String := none
  deriving Repr, DecidableEq

/-- One ARP (uninstall-registry) entry. -/
structure AppsAndFeaturesEntry where
  displayName : Option String := none
  publisher : Option String := none
  displayVersion : Option String := none
  productCode : Option String := none
  upgradeCode : Option String := none
  deriving Repr, DecidableEq

/-- `winget_types::installer::Installer`, restricted to the fields the
analysed code reads or writes. `locale` keeps the resolved numeric LCID (the
external `msi::Language`/`LanguageTag` round-trip is not modelled).
`installModesAll` stands for `InstallModes::all()`. -/
structure Installer where
  locale : Option Nat := none
  architecture : Architecture := .neutral
  type : Option InstallerType := none
  scope : Option Scope := none
  productCode : Option String := none
  appsAndFeaturesEntries : List AppsAndFeaturesEntry := []
  defaultInstallLocation : Option String := none
  installModesAll : Bool := false
  switches : InstallerSwitches := {}
  expectedReturnCodes : List ExpectedReturnCode := []
  deriving Repr, DecidableEq

/-! ## Format probes and the executable dispatcher (installers/exe.rs)

`AdvancedInstaller::new`, `Burn::new`, `Inno::new` and `Nsis::new` are
separate crates or modules outside the analysed sources; each returns either
a recognized handle, its dedicated "not this format" error
(`NotAdvancedInstallerFile`, `NotBurnFile`, `NotInnoFile`, `NotNsisFile`), or
some other (fatal) error. `ProbeOutcome` models exactly that three-way
result, and `Exe.new` is parametric in the four probe outcomes. -/

/-- Result of one format probe: recognized, its dedicated "not this format"
error, or any other error (carried as a message). -/
inductive ProbeOutcome (α : Type) where
  | recognized (a : α)
  | notThisFormat
  | failure (e : String)
  deriving Repr, DecidableEq

/-- Handle produced by a recognized probe, carrying the installer records its
`installers()` returns (probe internals are external to the analysed code). -/
structure ProbeHandle where
  installers : List Installer
  deriving Repr, DecidableEq

/-- The four technology probes `Exe::new` runs, in source order. -/
structure ExeProbes where
  advanced : ProbeOutcome ProbeHandle
  burn : ProbeOutcome ProbeHandle
  inno : ProbeOutcome ProbeHandle
  nsis : ProbeOutcome ProbeHandle
  deriving Repr, DecidableEq

/-- The `Exe` enum from installers/exe.rs. -/
inductive Exe where
  | advancedInstaller (a : ProbeHandle)
  | burn (b : ProbeHandle)
  | inno (i : ProbeHandle)
  | nsis (n : ProbeHandle)
  | generic (i : Installer)
  deriving Repr, DecidableEq

/-- The keyword list `BASIC_INSTALLER_KEYWORDS` from exe.rs. -/
def BASIC_INSTALLER_KEYWORDS : List String := ["installer", "setup", "7zs.sfx", "7zsd.sfx"]

/-- The version-resource keyword scan of `Exe::new` (exe.rs lines 75–84):
some `FileDescription` or `OriginalFilename` value, ASCII-lowercased,
contains one of the installer keywords. -/
def installerKeywordMatch (pe : PE) : Bool :=
  pe.version_info_list.any fun kv =>
    (kv.key == "FileDescription" || kv.key == "OriginalFilename") &&
    (match kv.value with
     | some v => BASIC_INSTALLER_KEYWORDS.any (fun k => containsSubstr (toLowerAscii v) k)
     | none => false)

/-- The fallback `Generic` installer built at the end of `Exe::new`:
architecture from the PE machine type; type `Exe` when a `FileDescription` or
`OriginalFilename` version value contains an installer keyword
(ASCII-lowercased), else `Portable`; silent switches from `InternalName`. -/
def genericInstaller (pe : PE) : Installer :=
  let internalName :=
    ((pe.version_info_list.find? (fun kv => kv.key == "InternalName")).bind
      (·.value)).map toLowerAscii |>.getD ""
  let silent :=
    if internalName = "sfxcab.exe" then "/quiet"
    else if internalName = "7zs.sfx" ∨ internalName = "7z.sfx" ∨ internalName = "7zsd.sfx" then "/s"
    else if internalName = "setup launcher" then "/s"
    else if internalName = "wextract" then "/Q"
    else ""
  { architecture := fromMachine pe.machine
    type := if installerKeywordMatch pe then some .exe else some .portable
    switches :=
      if silent ≠ "" then
        { silent := some silent, silentWithProgress := some silent }
      else {} }

/-- `Exe::new` from installers/exe.rs: run the four probes in source order;
a probe's "not this format" error falls through to the next probe, any other
probe error aborts the whole classification, and when all four decline the
generic fallback record is built. -/
def Exe.new (probes : ExeProbes) (pe : PE) : Except String Exe :=
  match probes.advanced with
  | .recognized a => .ok (.advancedInstaller a)
  | .failure e => .error e
  | .notThisFormat =>
    match probes.burn with
    | .recognized b => .ok (.burn b)
    | .failure e => .error e
    | .notThisFormat =>
      match probes.inno with
      | .recognized i => .ok (.inno i)
      | .failure e => .error e
      | .notThisFormat =>
        match probes.nsis with
        | .recognized n => .ok (.nsis n)
        | .failure e => .error e
        | .notThisFormat => .ok (.generic (genericInstaller pe))

/-- `Installers::installers` for `Exe` (exe.rs lines 102–112). -/
def Exe.installers : Exe → List Installer
  | .advancedInstaller a => a.installers
  | .burn b => b.installers
  | .inno i => i.installers
  | .nsis n => n.installers
  | .generic i => [i]

/-! ## Analyzer file-name architecture hint (analyzer.rs lines 74–88) -/

/-- The per-installer architecture adjustment the analyzer applies on the EXE
route: only when the probe-determined architecture is x86, a lowercased file
name containing "arm64" forces Arm64, else one containing "x64" forces X64.
(`str::to_lowercase` agrees with ASCII lowercasing on these inputs.) -/
def applyArchHint (fileName : String) (installer : Installer) : Installer :=
  if installer.architecture = .x86 then
    let fileNameLower := toLowerAscii fileName
    if containsSubstr fileNameLower "arm64" then { installer with architecture := .arm64 }
    else if containsSubstr fileNameLower "x64" then { installer with architecture := .x64 }
    else installer
  else installer

/-- The analyzer's EXE route result (analyzer.rs lines 65–89): the records of
the dispatched `Exe` with the file-name architecture hint applied to each. -/
def analyzerExeInstallers (probes : ExeProbes) (pe : PE) (fileName : String) :
    Except String (List Installer) :=
  (Exe.new probes pe).map (fun exe => exe.installers.map (applyArchHint fileName))

/-! ## NSIS plugin-interpreter VM state

Modelled from the spec: `NsisState` (nsis/state.rs is not among the analysed
sources) is "an operand stack of string-typed values, a fixed 20-slot
register file (variable indices 0–19), and a map from synthetic pointer
addresses to mocked memory structs". The stack is a Rust `Vec` pushed/popped
at one end (modelled as list head); `variables` and `mockStructs` are hash
maps modelled as insert-at-front association lists (`vars` models the
source's `state.variables` register file). -/
structure NsisState where
  stack : List String := []
  vars : List (Nat × String) := []
  mockStructs : List (String × List String) := []
  deriving Repr, DecidableEq

/-- `state.stack.push(v)`. -/
def NsisState.push (st : NsisState) (v : String) : NsisState :=
  { st with stack := v :: st.stack }

/-- `state.stack.pop()`: the popped value (if any) and the remaining state. -/
def NsisState.pop (st : NsisState) : Option String × NsisState :=
  (st.stack.head?, { st with stack := st.stack.tail })

/-- `state.variables.insert(i, v)` (HashMap insert: newest binding wins). -/
def NsisState.insertVar (st : NsisState) (i : Nat) (v : String) : NsisState :=
  { st with vars := (i, v) :: st.vars }

/-- `state.variables.get(&i)`. -/
def NsisState.getVar (st : NsisState) (i : Nat) : Option String :=
  (st.vars.find? (fun p => p.1 == i)).map (·.2)

/-- `MOCK_STRUCTS.insert(addr, fields)`. -/
def NsisState.insertStruct (st : NsisState) (addr : String) (fields : List String) : NsisState :=
  { st with mockStructs := (addr, fields) :: st.mockStructs }

/-- `MOCK_STRUCTS.get(&addr)`. -/
def NsisState.getStruct (st : NsisState) (addr : String) : Option (List String) :=
  (st.mockStructs.find? (fun p => p.1 == addr)).map (·.2)

/-! ## `System::Call` parameter grammar (nsis/entry/plugins/system/call.rs) -/

/-- `ParsedParam` from plugins/system/call.rs: type, optional source,
optional destination. -/
structure ParsedParam where
  paramType : String
  source : Option String
  destination : Option String
  deriving Repr, DecidableEq

/-- ASCII hex-digit test (`char::is_ascii_hexdigit`). -/
def isHexDigitChar (c : Char) : Bool :=
  c.isDigit || ('a' ≤ c && c ≤ 'f') || ('A' ≤ c && c ≤ 'F')

/-- Quoted-source scan: consume characters up to and including the matching
closing quote (or everything, when it never closes). -/
def takeQuoted (q : Char) : List Char → List Char × List Char
  | [] => ([], [])
  | ch :: rest =>
      if ch = q then ([ch], rest)
      else
        let (a, r) := takeQuoted q rest
        (ch :: a, r)

/-- Numeric-source scan with the `0x` hex-prefix state from
`parse_source_and_destination`: digits, `-`, `|`, an `x`/`X` that switches on
hex mode, and hex digits once in hex mode. -/
def numScan : List Char → Bool → List Char × List Char
  | [], _ => ([], [])
  | ch :: rest, sawHex =>
      if ch.isDigit then
        let (a, r) := numScan rest sawHex
        (ch :: a, r)
      else if ch = '-' ∨ ch = '|' then
        let (a, r) := numScan rest sawHex
        (ch :: a, r)
      else if ch = 'x' ∨ ch = 'X' then
        let (a, r) := numScan rest true
        (ch :: a, r)
      else if sawHex ∧ isHexDigitChar ch then
        let (a, r) := numScan rest sawHex
        (ch :: a, r)
      else ([], ch :: rest)

/-- The source scan of `parse_source_and_destination`: quoted literal, `.`,
`n`, `s`, a register name with digits, a special NSIS variable, or a numeric
literal; anything else consumes nothing. -/
def parseSourceChars (s : List Char) : List Char × List Char :=
  match s with
  | [] => ([], [])
  | c :: rest =>
      if c = cQuote ∨ c = cDQuote ∨ c = cBacktick then
        let (a, r) := takeQuoted c rest
        (c :: a, r)
      else if c = '.' then ([c], rest)
      else if c = 'n' then ([c], rest)
      else if c = 's' then ([c], rest)
      else if c = 'r' ∨ c = 'R' then
        let ds := rest.takeWhile Char.isDigit
        (c :: ds, rest.drop ds.length)
      else if c = 'c' ∨ c = 'd' ∨ c = 'o' ∨ c = 'e' ∨ c = 'a' then ([c], rest)
      else if c.isDigit ∨ c = '-' then numScan s false
      else ([], s)

/-- The destination scan of `parse_source_and_destination`: `.`, `n`, `s`, or
a register name with digits. -/
def parseDestChars (s : List Char) : List Char :=
  match s with
  | [] => []
  | c :: rest =>
      if c = '.' ∨ c = 'n' ∨ c = 's' then [c]
      else if c = 'r' ∨ c = 'R' then c :: rest.takeWhile Char.isDigit
      else []

/-- `parse_source_and_destination`: scan a source, trim, scan a destination;
an empty or `.` result becomes `None`. -/
def parseSourceAndDestination (s : List Char) : Option String × Option String :=
  if s = [] then (none, none)
  else
    let (srcChars, rest) := parseSourceChars s
    let dstChars := parseDestChars (trimChars rest)
    (if srcChars = [] ∨ srcChars = ['.'] then none else some (String.mk srcChars),
     if dstChars = [] ∨ dstChars = ['.'] then none else some (String.mk dstChars))

/-- `parse_param`: trim, parse the type (`*` pointer mark, `&`-long form with
letters/digits, or one alphabetic character), then source and destination. -/
def parseParam (paramStr : String) : ParsedParam :=
  let s := trimChars paramStr.data
  match s with
  | [] => ⟨"", none, none⟩
  | _ =>
      let (star, s1) :=
        match s with
        | '*' :: r => (['*'], r)
        | _ => ([], s)
      let (tyRest, s2) :=
        match s1 with
        | '&' :: r =>
            let body := r.takeWhile (fun c => c.isAlpha || c.isDigit)
            ('&' :: body, r.drop body.length)
        | c :: r => if c.isAlpha then ([c], r) else ([], s1)
        | [] => ([], [])
      let paramType := String.mk (star ++ tyRest)
      let remaining := trimChars s2
      if remaining = [] then ⟨paramType, none, none⟩
      else
        let (src, dst) := parseSourceAndDestination remaining
        ⟨paramType, src, dst⟩

/-- `split_params`: split on commas outside quoted spans; a part is pushed at
every comma, and the final part only when non-empty. -/
def splitParamsAux : List Char → Bool → Char → List Char → List (List Char) → List (List Char)
  | [], _, _, current, acc => if current ≠ [] then current :: acc else acc
  | c :: rest, inQuote, q, current, acc =>
      if inQuote then
        splitParamsAux rest (c ≠ q) q (current ++ [c]) acc
      else if c = cQuote ∨ c = cDQuote ∨ c = cBacktick then
        splitParamsAux rest true c (current ++ [c]) acc
      else if c = ',' then
        splitParamsAux rest false q [] (current :: acc)
      else
        splitParamsAux rest false q (current ++ [c]) acc

/-- `split_params`, trimming each part as the source does when pushing. -/
def splitParams (s : List Char) : List String :=
  ((splitParamsAux s false ' ' [] []).reverse).map (fun l => String.mk (trimChars l))

/-- Index of the last occurrence of a character (`str::rfind`). -/
def lastIdxOf (c : Char) (s : List Char) : Option Nat :=
  (List.findIdx? (· = c) s.reverse).map (fun i => s.length - 1 - i)

/-- Index of the first occurrence of a substring (`str::find` with a literal
pattern). -/
def findSubIdx : List Char → List Char → Option Nat
  | hay, pat =>
      if pat.isPrefixOf hay then some 0
      else
        match hay with
        | [] => none
        | _ :: t => (findSubIdx t pat).map (· + 1)

/-- `parse_params`: the parameter list between the first `(` and the last
`)`, split and parsed, plus the parsed return specification after the last
`)` when non-empty. (The callers always pass either an empty string or one
starting with `(`, so the last `)` never precedes the first `(`.) -/
def parseParams (paramsAndReturn : List Char) : List ParsedParam × Option ParsedParam :=
  match List.findIdx? (· = '(') paramsAndReturn with
  | none => ([], none)
  | some i =>
      match lastIdxOf ')' paramsAndReturn with
      | none => ([], none)
      | some j =>
          let paramsStr := (paramsAndReturn.drop (i + 1)).take (j - (i + 1))
          let returnStr := trimChars (paramsAndReturn.drop (j + 1))
          ((splitParams paramsStr).map parseParam,
           if returnStr ≠ [] then some (parseParam (String.mk returnStr)) else none)

/-- `parse_register` from plugins/system/call.rs: `r<num>` maps to `num`
(`r0`–`r9` to 0–9, `r10`–`r19` to 10–19) and `R<num>` to `num + 10`. -/
def parseRegister (reg : String) : Option Nat :=
  match reg.data with
  | [] => none
  | first :: rest =>
      if rest = [] then none
      else
        match parseNat (String.mk rest) with
        | none => none
        | some num =>
            if first = 'r' then some num
            else if first = 'R' then some (num + 10)
            else none

/-- `store_to_destination`: `s` pushes to the stack, a register name stores
into the flat register file, anything else is ignored. -/
def storeToDestination (st : NsisState) (dest : String) (value : String) : NsisState :=
  if dest = "s" then st.push value
  else if dest.data.headD ' ' = 'r' ∨ dest.data.headD ' ' = 'R' then
    match parseRegister dest with
    | some idx => st.insertVar idx value
    | none => st
  else st

/-- `parse_register_name` from plugins/system/mod.rs: `r<n>`/`R<n>` with
`R<n>` offset by +10 only for `n < 10`, or a bare number taken as a literal
register index. -/
def parseRegisterName (name : String) : Option Nat :=
  let name := strTrim name
  if name.data = [] then none
  else if name.data.headD ' ' = 'r' ∨ name.data.headD ' ' = 'R' then
    (parseNat (String.mk name.data.tail)).map (fun n =>
      if name.data.headD ' ' = 'R' ∧ n < 10 then n + 10 else n)
  else parseNat name

/-! ## `System::Call` evaluation (nsis/entry/plugins/system/call.rs) -/

/-- `get_param_register_value`: the first parameter between the first `(` and
the first `)`, trimmed; skip its type character, require a register letter
and one digit, and read that register. -/
def getParamRegisterValue (st : NsisState) (pr : List Char) : Option String :=
  match List.findIdx? (· = '(') pr with
  | none => none
  | some i =>
      match List.findIdx? (· = ')') pr with
      | none => none
      | some j =>
          match trimChars ((pr.drop (i + 1)).take (j - (i + 1))) with
          | _ :: regChar :: digitChar :: _ =>
              if regChar = 'r' ∨ regChar = 'R' then
                if digitChar.isDigit then
                  st.getVar
                    (if regChar = 'R' then digitChar.toNat - 48 + 10 else digitChar.toNat - 48)
                else none
              else none
          | _ => none

/-- The `GetVersionEx` mock: when the first parameter names a register, mark
a mock struct at that register's value with the fixed version data. -/
def getVersionExEffect (st : NsisState) (pr : List Char) : NsisState :=
  match getParamRegisterValue st pr with
  | some ptrAddr => st.insertStruct ptrAddr ["284", "10", "0", "19041", "2", ""]
  | none => st

/-- The `IsWow64Process`/`IsWow64Process2` mocks: write the mock machine word
(`34404` for `IsWow64Process2`, `0` for `IsWow64Process` when a `*i`
parameter occurs) to every pointer-typed parameter's destination. -/
def wow64Effect (st : NsisState) (function : String) (params : List ParsedParam)
    (pr : List Char) : NsisState :=
  if function = "IsWow64Process2" then
    params.foldl (fun st p =>
      if p.paramType.data.headD ' ' = '*' then
        match p.destination with
        | some dest => storeToDestination st dest "34404"
        | none => st
      else st) st
  else if containsSubstr (String.mk pr) "*i" then
    params.foldl (fun st p =>
      if p.paramType.data.headD ' ' = '*' then
        match p.destination with
        | some dest => storeToDestination st dest "0"
        | none => st
      else st) st
  else st

/-- The fixed known-folder GUID table of the `SHGetKnownFolderPath` mock. -/
def knownFolderPath (guid : String) : Option String :=
  if guid = "\x7b5CD7AEE2-2219-4A67-B85D-6C9CE15660CB\x7d" then some "%LocalAppData%\\Programs"
  else if guid = "\x7bF1B32785-6FBA-4FCF-9D55-7B8E7F157091\x7d" then some "%LocalAppData%"
  else if guid = "\x7b3" ++ "EB685DB-65F9-4CF6-A03A-E3EF65729F3D\x7d" then some "%AppData%"
  else if guid = "\x7b905E63B6-C1BF-494" ++ "E-B29C-65B732D3D21A\x7d" then some "%ProgramFiles%"
  else if guid = "\x7b6D809377-6AF0-444B-8957-A3773F02200E\x7d" then some "%ProgramFiles%"
  else if guid = "\x7b7C5A40EF-A0FB-4BFC-874A-C0F2E0B9FA8E\x7d" then some "%ProgramFiles(x86)%"
  else none

/-- GUID extraction for `SHGetKnownFolderPath`: from the first `\x7b` to the
next `\x7d`, both included. -/
def extractGuid (pr : List Char) : Option String :=
  (List.findIdx? (· = Char.ofNat 123) pr).bind fun start =>
    let tl := pr.drop start
    (List.findIdx? (· = Char.ofNat 125) tl).map fun e => String.mk (tl.take (e + 1))

/-- The `SHGetKnownFolderPath` mock: for every `*p` parameter with a
destination, mint a pointer token from the current stack depth, mark a mock
struct holding the path there, and store the token to the destination. -/
def shGetKnownFolderEffect (st : NsisState) (params : List ParsedParam)
    (path : String) : NsisState :=
  params.foldl (fun st p =>
    if p.paramType = "*p" then
      match p.destination with
      | some dest =>
          let ptr := toString st.stack.length
          storeToDestination (st.insertStruct ptr [path]) dest ptr
      | none => st
    else st) st

/-- The per-module/per-function mock-result table of `evaluate` (its `match
dll` expression): the possibly updated state and the textual result; every
unlisted module or function yields `"0"` with no state change. -/
def mockCall (st : NsisState) (dll function : String) (params : List ParsedParam)
    (pr : List Char) : NsisState × String :=
  if dll = "advapi32" then
    (st,
     if function = "OpenSCManager" ∨ function = "OpenService" ∨
        function = "QueryServiceStatus" ∨ function = "CloseServiceHandle" then "1" else "0")
  else if dll = "kernel32" then
    if function = "GetVersionEx" then (getVersionExEffect st pr, "1")
    else if function = "IsWow64Process" ∨ function = "IsWow64Process2" then
      (wow64Effect st function params pr, "1")
    else if function = "GetTickCount" then (st, "0")
    else if function = "GetLocalTime" ∨ function = "GetSystemTime" then (st, "0")
    else if function = "GetCurrentProcess" then (st, "-1")
    else (st, "0")
  else if dll = "shell32" ∨ dll = "SHELL32" then
    if function = "SHChangeNotify" then (st, "0")
    else if function = "SHGetKnownFolderPath" then
      match (extractGuid pr).bind knownFolderPath with
      | some path => (shGetKnownFolderEffect st params path, "0")
      | none => (st, "1")
    else (st, "0")
  else (st, "0")

/-- `handle_struct_operation`. `none` models the Rust panic: the source
slices `api_call[paren_start + 1..paren_end]` before any further check, which
panics whenever the last `)` lies before the first `(`. -/
def handleStructOperation (st : NsisState) (apiCall : String) : Option NsisState :=
  let cs := apiCall.data
  match List.findIdx? (· = '(') cs, lastIdxOf ')' cs with
  | some ps, some pe_ =>
      if pe_ < ps + 1 then none
      else
        let structSpec := (cs.drop (ps + 1)).take (pe_ - (ps + 1))
        let returnSpec := cs.drop (pe_ + 1)
        if ("*(&".data).isPrefixOf cs then
          let ptrAddr := toString st.stack.length
          match (parseParam (String.mk returnSpec)).destination with
          | some dest => some (storeToDestination st dest ptrAddr)
          | none => some st
        else
          let ptrAddr : Option String :=
            if cs.headD ' ' = '*' then
              let addrPart := String.mk ((cs.drop 1).take (ps - 1))
              if addrPart.data.headD ' ' = 'r' ∨ addrPart.data.headD ' ' = 'R' then
                (parseRegister addrPart).bind st.getVar
              else some addrPart
            else none
          match ptrAddr with
          | some addr =>
              match st.getStruct addr with
              | some fieldValues =>
                  some ((splitParams structSpec).enum.foldl (fun st p =>
                    match fieldValues.get? p.1 with
                    | some value =>
                        match (parseParam p.2).destination with
                        | some dest => storeToDestination st dest value
                        | none => st
                    | none => st) st)
              | none => some st
          | none => some st
  | _, _ => some st

/-- `evaluate` from plugins/system/call.rs: struct operations go to
`handleStructOperation`; otherwise split `module::function(params)return`,
pop every stack-sourced parameter, look up the mock table, and store the
result to the return destination when one is named. `none` models a Rust
panic (reachable only through `handleStructOperation`). -/
def systemCallEvaluate (st : NsisState) (apiCall : String) : Option NsisState :=
  let cs := apiCall.data
  if cs.headD ' ' = '*' ∧ cs.contains '(' then
    handleStructOperation st apiCall
  else
    let (dll, rest) :=
      match findSubIdx cs (':' :: [':']) with
      | some pos => (String.mk (cs.take pos), cs.drop (pos + 2))
      | none => ("", cs)
    let (function, paramsAndReturn) :=
      match List.findIdx? (· = '(') rest with
      | some pos => (String.mk (rest.take pos), rest.drop pos)
      | none => (String.mk rest, ([] : List Char))
    let (params, returnParam) := parseParams paramsAndReturn
    let st := params.foldl (fun st p =>
      if p.source = some "s" then { st with stack := st.stack.tail } else st) st
    let (st, result) := mockCall st dll function params paramsAndReturn
    match returnParam with
    | some ret =>
        match ret.destination with
        | some dest => some (storeToDestination st dest result)
        | none => some st
    | none => some st

/-! ## Icon reconstructor (icons.rs, `extract_pe_icons`)

The embedding covers the byte-stream reconstruction; the final base64 data-URL
wrapping (`icon_from_data`) and the `BTreeSet` deduplication are external
presentation steps not modelled. -/

/-- `data.get(start..start + len)`: `none` when the range leaves the buffer. -/
def sliceBytes (data : List Nat) (start len : Nat) : Option (List Nat) :=
  if start + len ≤ data.length then some ((data.drop start).take len) else none

/-- The icon-image index: id → raw bytes for every `RESOURCE_TYPE_ICON`
resource with a non-zero offset whose range lies inside the file (collected
into a `HashMap`, so a later resource with the same id wins). -/
def iconEntriesOf (pe : PE) (data : List Nat) : List (Nat × List Nat) :=
  (pe.resources.filter (fun r => r.rType = ResourceType.icon ∧ r.offset ≠ 0)).filterMap
    (fun r => (sliceBytes data r.offset r.length).map (fun b => (r.rid, b)))

/-- `HashMap` lookup over the collected icon entries (last insert wins). -/
def iconLookup (entries : List (Nat × List Nat)) (id : Nat) : Option (List Nat) :=
  ((entries.reverse).find? (fun p => p.1 == id)).map (·.2)

/-- The resolved members of one icon group: for each of the `count` 14-byte
directory entries, the entry bytes paired with the indexed image whose id the
entry names (unresolvable members are skipped). -/
def groupResolvedEntries (lookup : Nat → Option (List Nat)) (group : List Nat)
    (iconCount : Nat) : List (List Nat × List Nat) :=
  (List.range iconCount).filterMap (fun i =>
    (sliceBytes group (6 + i * 14) 14).bind (fun entry =>
      (lookup (entry.getD 12 0 + 256 * entry.getD 13 0)).map (fun iconData => (entry, iconData))))

/-- The re-laid-out 16-byte directory: per resolved member, dimensions and
color count copied, the reserved byte zeroed, planes/bit-count copied, the
payload length, and the running absolute data offset. -/
def icoDirectory : List (List Nat × List Nat) → Nat → List Nat
  | [], _ => []
  | (entry, payload) :: rest, dataOffset =>
      [entry.getD 0 0, entry.getD 1 0, entry.getD 2 0, 0] ++ (entry.drop 4).take 4
        ++ u32le payload.length ++ u32le dataOffset
        ++ icoDirectory rest (dataOffset + payload.length)

/-- The emitted icon file: the group's copied 4-byte header prefix, the
member count, the re-laid-out directory (first data offset
`6 + 16 * count`), then the payloads concatenated in directory order. -/
def buildIco (group : List Nat) (entries : List (List Nat × List Nat)) : List Nat :=
  group.take 4 ++ u16le entries.length
    ++ icoDirectory entries (6 + entries.length * 16)
    ++ (entries.map (·.2)).flatten

/-- Processing of one group-icon resource: slice the group, read its member
count, resolve the members, and emit the rebuilt icon file (skipping the
group when nothing resolves or the group bytes are short). -/
def processGroup (lookup : Nat → Option (List Nat)) (data : List Nat)
    (r : Resource) : Option (List Nat) :=
  (sliceBytes data r.offset r.length).bind fun group =>
  (sliceBytes group 4 2).bind fun cnt =>
  let iconCount := cnt.getD 0 0 + 256 * cnt.getD 1 0
  let entries := groupResolvedEntries lookup group iconCount
  if entries = [] then none else some (buildIco group entries)

/-- `extract_pe_icons` restricted to the reconstructed byte streams: one per
`RESOURCE_TYPE_GROUP_ICON` resource with at least one resolved member. -/
def extractPeIcons (pe : PE) (data : List Nat) : List (List Nat) :=
  (pe.resources.filter (fun r => r.rType = ResourceType.groupIcon ∧ r.offset ≠ 0)).filterMap
    (processGroup (iconLookup (iconEntriesOf pe data)) data)

/-- Little-endian `u16` read inside a byte list. -/
def readU16At (file : List Nat) (pos : Nat) : Option Nat :=
  (sliceBytes file pos 2).map (fun l => l.getD 0 0 + 256 * l.getD 1 0)

/-- Little-endian `u32` decode of four bytes. -/
def decodeU32 (l : List Nat) : Nat :=
  l.getD 0 0 + 256 * l.getD 1 0 + 65536 * l.getD 2 0 + 16777216 * l.getD 3 0

/-- An ICO-format reader for the round-trip check: for each of `n` directory
entries starting at index `i`, return (width byte, height byte, payload),
where the payload is read at the entry's recorded absolute offset and
length. -/
def parseIcoAux (file : List Nat) : Nat → Nat → Option (List (Nat × Nat × List Nat))
  | _, 0 => some []
  | i, n + 1 =>
      (sliceBytes file (6 + 16 * i) 16).bind fun entry =>
      (sliceBytes file (decodeU32 ((entry.drop 12).take 4)) (decodeU32 ((entry.drop 8).take 4))).bind
        fun payload =>
      (parseIcoAux file (i + 1) n).map (fun rest =>
        (entry.getD 0 0, entry.getD 1 0, payload) :: rest)

/-- ICO-format reader: member count at offset 4, then the members. -/
def parseIco (file : List Nat) : Option (List (Nat × Nat × List Nat)) :=
  (readU16At file 4).bind fun count => parseIcoAux file 0 count

/-! ## InstallShield probe (installershield sources)

The `Read + Seek` reader becomes an explicit byte buffer with a cursor
(`RD`); failed reads model `std::io::Error` (hard), seeks past the end
succeed as they do for in-memory readers. -/

/-- A seekable in-memory reader: the bytes and the cursor position. -/
structure RD where
  data : List Nat
  pos : Nat
  deriving Repr, DecidableEq

/-- `read_exact(n)`: the next `n` bytes, failing at end of stream. -/
def RD.readExact (rd : RD) (n : Nat) : Option (List Nat × RD) :=
  if rd.pos + n ≤ rd.data.length then
    some ((rd.data.drop rd.pos).take n, ⟨rd.data, rd.pos + n⟩)
  else none

/-- `read_u16::<LittleEndian>()`. -/
def RD.readU16 (rd : RD) : Option (Nat × RD) :=
  (rd.readExact 2).map (fun p => (p.1.getD 0 0 + 256 * p.1.getD 1 0, p.2))

/-- `read_u32::<LittleEndian>()`. -/
def RD.readU32 (rd : RD) : Option (Nat × RD) :=
  (rd.readExact 4).map (fun p => (decodeU32 p.1, p.2))

/-- `seek(SeekFrom::Start(p))`. -/
def RD.seekStart (rd : RD) (p : Nat) : RD := ⟨rd.data, p⟩

/-- `seek(SeekFrom::Current(i))`; seeking before position zero is an error. -/
def RD.seekCur (rd : RD) (i : Int) : Option RD :=
  let np := (rd.pos : Int) + i
  if np < 0 then none else some ⟨rd.data, np.toNat⟩

/-- The `while read_u8()? != 0 {}` scan over the optional PDB block: advance
past the next zero byte, failing at end of stream. -/
def RD.skipPastZero (rd : RD) : Option RD :=
  match (rd.data.drop rd.pos).findIdx? (· = 0) with
  | some i => some ⟨rd.data, rd.pos + i + 1⟩
  | none => none

/-- The `File` record from installshield/file.rs. -/
structure ISFile where
  name : String
  encodedFlags : Nat
  size : Nat
  offset : Nat
  deriving Repr, DecidableEq

/-- The errors of installshield/mod.rs that the model can produce:
`NotInstallShieldFile` (soft) and the I/O wrapper (hard). -/
inductive InstallShieldError where
  | notInstallShieldFile
  | ioError
  deriving Repr, DecidableEq

/-- Lift a reader result, turning end-of-stream into the hard I/O error. -/
def orIo {α : Type} : Option α → Except InstallShieldError α
  | some a => .ok a
  | none => .error .ioError

/-- `Kind` from installshield/mod.rs. -/
inductive ISKind where
  | plain
  | setupStream
  deriving Repr, DecidableEq

/-- `Header` from installshield/mod.rs. -/
structure ISHeader where
  kind : ISKind
  numFiles : Nat
  headerType : Nat
  deriving Repr, DecidableEq

/-- `CStr::from_bytes_until_nul`: the bytes before the first nul, failing when
no nul exists. -/
def cstrUntilNul (bytes : List Nat) : Option (List Nat) :=
  (bytes.findIdx? (· = 0)).map (fun i => bytes.take i)

/-- `str::starts_with` for a literal pattern. -/
def startsWithStr (s p : String) : Bool := p.data.isPrefixOf s.data

/-- `Header::read`: skip an optional `NB10` PDB block, read the 14-byte
magic, the file count and the header type, skip 26 reserved bytes, and map
the magic to the layout kind (any other magic is `NotInstallShieldFile`). -/
def headerRead (rd : RD) : Except InstallShieldError (ISHeader × RD) :=
  match rd.readExact 4 with
  | none => .error .ioError
  | some (sig, rd1) =>
      (if sig = [0x4E, 0x42, 0x31, 0x30] then
        match rd1.seekCur 12 with
        | none => .error .ioError
        | some rd2 => orIo rd2.skipPastZero
      else orIo (rd1.seekCur (-4))).bind fun rd2 =>
      (orIo (rd2.readExact 14)).bind fun (magic, rd3) =>
      (orIo rd3.readU16).bind fun (numFiles, rd4) =>
      (orIo rd4.readU32).bind fun (headerType, rd5) =>
      (orIo (rd5.seekCur 26)).bind fun rd6 =>
      match (cstrUntilNul magic).map bytesToString with
      | some "InstallShield" => .ok (⟨.plain, numFiles, headerType⟩, rd6)
      | some "ISSetupStream" => .ok (⟨.setupStream, numFiles, headerType⟩, rd6)
      | _ => .error .notInstallShieldFile

/-- `parse_plain_entries`: `count` fixed-layout entries (260-byte name, flags,
reserved, size, reserved), each followed by its payload. A name without a nul
terminator becomes the empty string (`unwrap_or_default`). -/
def parsePlainEntries : RD → Nat → Except InstallShieldError (List ISFile × RD)
  | rd, 0 => .ok ([], rd)
  | rd, n + 1 =>
      (orIo (rd.readExact 260)).bind fun (rawName, rd1) =>
      (orIo rd1.readU32).bind fun (encodedFlags, rd2) =>
      (orIo (rd2.seekCur 4)).bind fun rd3 =>
      (orIo rd3.readU32).bind fun (size, rd4) =>
      (orIo (rd4.seekCur 40)).bind fun rd5 =>
      let name := ((cstrUntilNul rawName).map bytesToString).getD ""
      let offset := rd5.pos
      (orIo (rd5.seekCur size)).bind fun rd6 =>
      (parsePlainEntries rd6 n).map fun (files, rdEnd) =>
        (⟨name, encodedFlags, size, offset⟩ :: files, rdEnd)

/-- `parse_stream_entries`: `count` length-prefixed entries (UTF-16LE name,
flags, reserved, size, reserved, plus 24 attribute bytes when the header
type is 4), each followed by its payload. -/
def parseStreamEntries : RD → Nat → Nat → Except InstallShieldError (List ISFile × RD)
  | rd, 0, _ => .ok ([], rd)
  | rd, n + 1, headerType =>
      (orIo rd.readU32).bind fun (filenameLen, rd1) =>
      (orIo rd1.readU32).bind fun (encodedFlags, rd2) =>
      (orIo (rd2.seekCur 2)).bind fun rd3 =>
      (orIo rd3.readU32).bind fun (size, rd4) =>
      (orIo (rd4.seekCur 10)).bind fun rd5 =>
      (if headerType = 4 then orIo (rd5.seekCur 24) else .ok rd5).bind fun rd6 =>
      (if filenameLen = 0 then .ok ("", rd6)
       else (orIo (rd6.readExact filenameLen)).map fun (buf, rd7) =>
         (String.mk (trimNulChars (utf16leDecode buf)), rd7)).bind fun (name, rd8) =>
      let offset := rd8.pos
      (orIo (rd8.seekCur size)).bind fun rd9 =>
      (parseStreamEntries rd9 n headerType).map fun (files, rdEnd) =>
        (⟨name, encodedFlags, size, offset⟩ :: files, rdEnd)

/-- `read_ascii_strz`: bytes until a nul, decoded (lossily) as text. -/
def readAsciiStrz (rd : RD) : Option (String × RD) :=
  ((rd.data.drop rd.pos).findIdx? (· = 0)).map fun i =>
    (bytesToString ((rd.data.drop rd.pos).take i), ⟨rd.data, rd.pos + i + 1⟩)

/-- The scan of `read_utf16le_strz`: bytes before the first zero UTF-16 code
unit, plus the number of bytes consumed including the terminator; `none` at
end of stream. -/
def readUtf16StrzAux : List Nat → Option (List Nat × Nat)
  | lo :: hi :: rest =>
      if lo % 256 = 0 ∧ hi % 256 = 0 then some ([], 2)
      else (readUtf16StrzAux rest).map (fun p => (lo :: hi :: p.1, p.2 + 2))
  | _ => none

/-- `read_utf16le_strz`: UTF-16LE code units until a zero unit. -/
def readUtf16Strz (rd : RD) : Option (String × RD) :=
  (readUtf16StrzAux (rd.data.drop rd.pos)).map fun p =>
    (String.mk (utf16leDecode p.1), ⟨rd.data, rd.pos + p.2⟩)

/-- The loop of `parse_installscript_entries`: while fewer than `count` files
are collected and the cursor is before the end, read name / path / version /
size strings and record the payload region; an empty name stops the scan. -/
def parseISScriptLoop (read : RD → Option (String × RD)) (endPos : Nat) :
    Nat → RD → Except InstallShieldError (List ISFile × RD)
  | 0, rd => .ok ([], rd)
  | n + 1, rd =>
      if rd.pos < endPos then
        (orIo (read rd)).bind fun (name, rd1) =>
        if name = "" then .ok ([], rd1)
        else
          (orIo (read rd1)).bind fun (_, rd2) =>
          (orIo (read rd2)).bind fun (_, rd3) =>
          (orIo (read rd3)).bind fun (sizeStr, rd4) =>
          let size : Nat :=
            match parseNat sizeStr with
            | some v => if v < 4294967296 then v else 0
            | none => 0
          let offset := rd4.pos
          (orIo (rd4.seekCur (size : Int))).bind fun rd5 =>
          (parseISScriptLoop read endPos n rd5).map fun (files, rdEnd) =>
            (⟨name, 0, size, offset⟩ :: files, rdEnd)
      else .ok ([], rd)

/-- `parse_installscript_entries`: find the stream end, seek back, loop. -/
def parseISScriptEntries (rd : RD) (count : Nat)
    (read : RD → Option (String × RD)) : Except InstallShieldError (List ISFile × RD) :=
  parseISScriptLoop read rd.data.length count rd

/-- `decode_slice` applied to each 1024-byte chunk of the payload (the
`FLAG_CHUNKED` path of `File::decrypt`, each chunk restarting the key). -/
def decryptChunks (key : List Nat) : List Nat → List Nat
  | [] => []
  | b :: rest =>
      decodeSlice key 0 (b :: rest.take 1023) ++ decryptChunks key (rest.drop 1023)
  termination_by l => l.length
  decreasing_by
    simp only [List.length_cons, List.length_drop]
    omega

/-- Modelled from the spec: `ZlibDecoder` inflation is an external primitive;
on data that is not a zlib stream it fails, which is the only behavior the
analysed fixtures exercise, so the model always fails. -/
def tryZlibInflate (_ : List Nat) : Option (List Nat) := none

/-- `File::decrypt` from installshield/file.rs: payloads without the encoded
or chunked flags (mask 0x6) yield `None`; otherwise the payload bytes are
read, decoded with the filename-derived rotating key (per 1024-byte chunk
when chunked), and zlib inflation is attempted. -/
def fileDecrypt (f : ISFile) (rd : RD) : Except InstallShieldError (Option (List Nat)) :=
  if f.encodedFlags &&& 6 = 0 then .ok none
  else
    match (rd.seekStart f.offset).readExact f.size with
    | none => .error .ioError
    | some (data, _) =>
        let key := keyFromName (f.name.data.map Char.toNat)
        if key = [] then .ok none
        else
          let decoded :=
            if f.encodedFlags &&& 4 ≠ 0 then decryptChunks key data
            else decodeSlice key 0 data
          match tryZlibInflate decoded with
          | some out => .ok (some out)
          | none => .ok (some decoded)

/-- Modelled from the spec: the text decoding step of `File::read_text`
("text-decoded honoring a byte-order mark, else UTF-8, else UTF-16LE"); UTF-8
is modelled on the ASCII range the fixtures use. -/
def textDecode (bytes : List Nat) : String :=
  if bytes.take 3 = [0xEF, 0xBB, 0xBF] then bytesToString (bytes.drop 3)
  else if bytes.take 2 = [0xFF, 0xFE] then String.mk (utf16leDecode (bytes.drop 2))
  else if bytes.all (fun b => b % 256 < 128) then bytesToString bytes
  else String.mk (utf16leDecode bytes)

/-- Modelled from the spec: `File::read_text` (not among the analysed
sources; mod.rs calls it at line 133): a flagged payload is decrypted via
`fileDecrypt`, an unflagged one is read raw, and the bytes are
text-decoded. -/
def fileReadText (f : ISFile) (rd : RD) : Except InstallShieldError (Option String) :=
  match fileDecrypt f rd with
  | .error e => .error e
  | .ok (some bytes) => .ok (some (textDecode bytes))
  | .ok none =>
      match (rd.seekStart f.offset).readExact f.size with
      | none => .error .ioError
      | some (bytes, _) => .ok (some (textDecode bytes))

/-- `find_and_parse` from installshield/mod.rs: the last file-table entry
whose name matches case-insensitively (later entries override earlier
duplicates), read as text and parsed; every failure along the way counts as
absence. -/
def findAndParse {T : Type} (files : List ISFile) (rd : RD) (name : String)
    (parse : String → Option T) : Option T :=
  ((files.reverse).find? (fun f => eqIgnoreAsciiCase f.name name)).bind fun f =>
    match fileReadText f rd with
    | .ok (some content) => parse content
    | .ok none => none
    | .error _ => none

/-! ### setup.ini / setup.iss / Setup.xml payload models -/

/-- The `[Startup]` fields of setup.ini that installshield/mod.rs reads. -/
structure ISStartup where
  companyName : Option String := none
  product : Option String := none
  productCode : Option String := none
  productVersion : Option String := none
  scriptDriven : Option String := none
  upgradeCode : Option String := none
  deriving Repr, DecidableEq

/-- `SetupIni` restricted to the fields installshield/mod.rs reads
(`startup` and `languages.default`). -/
structure SetupIni where
  startup : ISStartup
  languagesDefault : String
  deriving Repr, DecidableEq

/-- `SetupIss` (setup_iss.rs): the `[Application]` section. -/
structure SetupIss where
  name : String
  version : String
  company : String
  deriving Repr, DecidableEq

/-- One `<Language>` element of Setup.xml: its lcid and its localized string
table. -/
structure XmlLanguage where
  lcid : String
  strings : List (String × String)
  deriving Repr, DecidableEq

/-- `SetupXml` (setup_xml.rs) restricted to the fields installshield/mod.rs
reads. -/
structure SetupXml where
  suiteId : String
  arpVersion : String
  arpPublisher : String
  arpDisplayName : String
  languageSelectionDefault : String
  languages : List XmlLanguage
  setProperty : List (String × Option String)
  deriving Repr, DecidableEq

/-- `SetupXml::get_property`. -/
def SetupXml.getProperty (x : SetupXml) (name : String) : Option String :=
  (x.setProperty.find? (fun p => p.1 == name)).bind (·.2)

/-- Split a character list into lines at newline characters. -/
def splitLinesAux : List Char → List Char → List (List Char)
  | [], cur => [cur.reverse]
  | c :: rest, cur =>
      if c = '\n' then cur.reverse :: splitLinesAux rest []
      else splitLinesAux rest (c :: cur)

/-- Modelled from the spec: the `serini` INI reader ("`setup.ini` (key/value
config)"), collecting `(section, key, value)` triples from `[Section]`
headers and `Key=Value` lines, all trimmed. -/
def iniTriples (content : String) : List (String × String × String) :=
  go (splitLinesAux content.data []) ""
where
  go : List (List Char) → String → List (String × String × String)
    | [], _ => []
    | l :: rest, cur =>
        let t := trimChars l
        if t.headD ' ' = '[' ∧ t.getLastD ' ' = ']' then
          go rest (String.mk ((t.drop 1).dropLast))
        else
          match t.findIdx? (· = '=') with
          | some i =>
              (cur, String.mk (trimChars (t.take i)),
                String.mk (trimChars (t.drop (i + 1)))) :: go rest cur
          | none => go rest cur

/-- Lookup of an INI key inside a section. -/
def iniGet (ts : List (String × String × String)) (sec key : String) : Option String :=
  (ts.find? (fun t => t.1 == sec && t.2.1 == key)).map (·.2.2)

/-- The `[Startup]` keys that are mandatory (non-`Option`) in the `SetupIni`
serde model of setup_ini.rs. -/
def setupIniRequiredStartupKeys : List String :=
  ["CmdLine", "DoMaintenance", "DotNetOptionalInstallIfSilent", "EnableLangDlg",
   "LauncherName", "LogResults", "OnUpgrade", "PackageCode", "PackageName",
   "Product", "ProductCode", "ProductVersion", "ScriptDriven", "ScriptVer",
   "SuppressWrongOS"]

/-- Modelled from the spec: `serini::from_str::<SetupIni>` — parsing succeeds
exactly when every field that is non-optional in setup_ini.rs is present
(`[Info]` Name/Version/DiskSpace, the mandatory `[Startup]` keys, and the
`[Languages]` keys). -/
def parseSetupIniStr (content : String) : Option SetupIni :=
  let ts := iniTriples content
  if ((iniGet ts "Info" "Name").isSome ∧ (iniGet ts "Info" "Version").isSome ∧
      (iniGet ts "Info" "DiskSpace").isSome) ∧
     (setupIniRequiredStartupKeys.all (fun k => (iniGet ts "Startup" k).isSome)) ∧
     ((iniGet ts "Languages" "RequireExactLangMatch").isSome ∧
      (iniGet ts "Languages" "RTLLangs").isSome ∧
      (iniGet ts "Languages" "Supported").isSome) then
    (iniGet ts "Languages" "Default").map fun langDefault =>
      { startup :=
          { companyName := iniGet ts "Startup" "CompanyName"
            product := iniGet ts "Startup" "Product"
            productCode := iniGet ts "Startup" "ProductCode"
            productVersion := iniGet ts "Startup" "ProductVersion"
            scriptDriven := iniGet ts "Startup" "ScriptDriven"
            upgradeCode := iniGet ts "Startup" "UpgradeCode" }
        languagesDefault := langDefault }
  else none

/-- Modelled from the spec: `serini::from_str::<SetupIss>` — requires the
`[Application]` Name/Version/Company keys of setup_iss.rs. -/
def parseSetupIssStr (content : String) : Option SetupIss :=
  let ts := iniTriples content
  match iniGet ts "Application" "Name", iniGet ts "Application" "Version",
      iniGet ts "Application" "Company" with
  | some n, some v, some c => some ⟨n, v, c⟩
  | _, _, _ => none

/-- The `InstallShield` record from installshield/mod.rs. -/
structure InstallShield where
  architecture : Architecture
  setupIni : Option SetupIni
  setupIss : Option SetupIss
  setupXml : Option SetupXml
  deriving Repr, DecidableEq

/-- The file-table stage of `InstallShield::new` (mod.rs lines 62–96): demand
an overlay, seek to it, and parse the layout selected by the InstallScript
version-resource heuristics or the overlay header magic. -/
def installShieldFiles (pe : PE) (rd0 : RD) : Except InstallShieldError (List ISFile × RD) :=
  match pe.overlayOffset with
  | none => .error .notInstallShieldFile
  | some off =>
      let rd := rd0.seekStart off
      if (match pe.viGet "ISInternalDescription" with
          | some desc => startsWithStr desc "InstallScript"
          | none => false) then
        match rd.readU32 with
        | none => .error .ioError
        | some (fileCount, rd1) => parseISScriptEntries rd1 fileCount readUtf16Strz
      else if pe.viGet "ProductName" = some "InstallShield (R)" then
        parseISScriptEntries rd 4294967295 readAsciiStrz
      else
        (headerRead rd).bind fun (header, rd1) =>
          match header.kind with
          | .plain => parsePlainEntries rd1 header.numFiles
          | .setupStream => parseStreamEntries rd1 header.numFiles header.headerType

/-- `InstallShield::new` (mod.rs lines 62–121): the file table, then the
three well-known payloads; when none of setup.ini / setup.iss / Setup.xml is
found and parsed the probe declines with `NotInstallShieldFile`. The
`Setup.xml` deserializer (`quick_xml`) is an external collaborator passed as
a parameter, exactly as `find_and_parse` takes its `parse` function. -/
def installShieldNew (parseXml : String → Option SetupXml) (pe : PE) (rd0 : RD) :
    Except InstallShieldError InstallShield :=
  (installShieldFiles pe rd0).bind fun (files, rd) =>
    let ini := findAndParse files rd "setup.ini" parseSetupIniStr
    let iss := findAndParse files rd "setup.iss" parseSetupIssStr
    let xml := findAndParse files rd "Setup.xml" parseXml
    if ini.isNone ∧ iss.isNone ∧ xml.isNone then .error .notInstallShieldFile
    else .ok { architecture := fromMachine pe.machine, setupIni := ini,
               setupIss := iss, setupXml := xml }

/-! ### Installer-record extraction (installshield/mod.rs `installers`) -/

/-- `COMMON_CODES` from installshield/return_codes.rs. -/
def COMMON_CODES : List ExpectedReturnCode :=
  [⟨-1, .cancelledByUser⟩, ⟨1, .invalidParameter⟩, ⟨1150, .systemNotSupported⟩,
   ⟨1201, .diskFull⟩, ⟨1203, .invalidParameter⟩, ⟨3010, .rebootRequiredToFinish⟩]

/-- `MSI_CODES` from installshield/return_codes.rs. -/
def MSI_CODES : List ExpectedReturnCode :=
  [⟨1601, .contactSupport⟩, ⟨1602, .cancelledByUser⟩, ⟨1618, .installInProgress⟩,
   ⟨1623, .systemNotSupported⟩, ⟨1625, .blockedByPolicy⟩, ⟨1628, .invalidParameter⟩,
   ⟨1633, .systemNotSupported⟩, ⟨1638, .alreadyInstalled⟩, ⟨1639, .invalidParameter⟩,
   ⟨1640, .blockedByPolicy⟩, ⟨1641, .rebootInitiated⟩, ⟨1643, .blockedByPolicy⟩,
   ⟨1644, .blockedByPolicy⟩, ⟨1649, .blockedByPolicy⟩, ⟨1650, .invalidParameter⟩,
   ⟨1654, .systemNotSupported⟩]

/-- `expected_return_codes`: the common codes, plus the MSI codes for
MSI-based installers (the external `BTreeSet` ordering is not modelled; the
lists keep chain order). -/
def expected_return_codes (msiBased : Bool) : List ExpectedReturnCode :=
  if msiBased then COMMON_CODES ++ MSI_CODES else COMMON_CODES

/-- Modelled from the spec: `RELATIVE_PROGRAM_FILES_64` from the external
utils module (a relative Program Files path placeholder). -/
def RELATIVE_PROGRAM_FILES_64 : String := "%ProgramFiles%"

/-- Modelled from the spec: `Scope::from_install_directory` of the external
`winget_types` (scope inferred from an install path); never reached by the
analysed fixtures. -/
def scopeFromInstallDirectory (dir : String) : Option Scope :=
  if containsSubstr (toLowerAscii dir) "appdata" then some .user
  else if containsSubstr (toLowerAscii dir) "program files" then some .machine
  else none

/-- `trim_start_matches("0x")`: strip every leading `0x`. -/
def stripLeading0x : List Char → List Char
  | '0' :: 'x' :: rest => stripLeading0x rest
  | l => l

/-- Hex digit value. -/
def hexVal (c : Char) : Option Nat :=
  if c.isDigit then some (c.toNat - 48)
  else if 'a' ≤ c ∧ c ≤ 'f' then some (c.toNat - 87)
  else if 'A' ≤ c ∧ c ≤ 'F' then some (c.toNat - 55)
  else none

/-- `u16::from_str_radix(s, 16)`: hex digits with the u16 range bound. -/
def parseHexU16 (s : List Char) : Option Nat :=
  if s ≠ [] ∧ s.all (fun c => (hexVal c).isSome) then
    let v := s.foldl (fun acc c => acc * 16 + (hexVal c).getD 0) 0
    if v < 65536 then some v else none
  else none

/-- `str::parse::<u16>`. -/
def parseU16 (s : String) : Option Nat :=
  (parseNat s).bind fun v => if v < 65536 then some v else none

/-- `Installers::installers` for `InstallShield` (mod.rs lines 150–283):
metadata precedence setup.ini → setup.iss → Setup.xml, the product-code
decoration chosen by the script-driven flag, switches and expected return
codes chosen by the Suite-UI / MSI / InstallScript three-way split. `locale`
keeps the resolved numeric language id (the external `msi::Language` tag
conversion is not modelled). -/
def installShieldInstallers (self : InstallShield) : List Installer :=
  let startup := self.setupIni.map (·.startup)
  let xml := self.setupXml
  let iss := self.setupIss
  let scriptDriven := startup.bind (·.scriptDriven)
  let msiBased := scriptDriven = some "0" ∨ scriptDriven = some "2"
  let publisher :=
    ((startup.bind (·.companyName)).orElse fun _ => iss.map (·.company)).orElse fun _ =>
      xml.bind fun x =>
        (((x.languages.find? (fun lang => lang.lcid == x.languageSelectionDefault)).bind
            fun lang => (lang.strings.find? (fun p => p.1 == x.arpPublisher)).map (·.2)).orElse
          fun _ => some x.arpPublisher)
  let productCode :=
    ((startup.bind (·.productCode)).map fun code =>
        if msiBased then code
        else if scriptDriven = some "4" then "\x7b" ++ code ++ "\x7d"
        else "InstallShield_" ++ code).orElse fun _ =>
      xml.bind fun x => (x.getProperty "ProductCode").orElse fun _ => some x.suiteId
  let version :=
    ((startup.bind (·.productVersion)).orElse fun _ => iss.map (·.version)).orElse fun _ =>
      xml.map (·.arpVersion)
  let locale :=
    ((self.setupIni.bind fun ini =>
        parseHexU16 (stripLeading0x ini.languagesDefault.data)).orElse fun _ =>
      xml.bind fun x => parseU16 x.languageSelectionDefault)
  let displayName :=
    (((startup.bind (·.product)).orElse fun _ => iss.map (·.name)).orElse fun _ =>
      xml.map (·.arpDisplayName)).orElse fun _ => xml.bind (·.getProperty "ProductName")
  let upgradeCode :=
    (startup.bind (·.upgradeCode)).orElse fun _ => xml.bind (·.getProperty "UpgradeCode")
  let installDir :=
    (xml.bind (·.getProperty "INSTALLDIR")).map fun v =>
      v.replace "[ProgramFiles64Folder]" RELATIVE_PROGRAM_FILES_64
  let scope := (installDir.bind scopeFromInstallDirectory).orElse fun _ => some .machine
  let switches : InstallerSwitches :=
    if xml.isSome then
      { silent := some "/silent", silentWithProgress := some "/passive",
        log := some "/log \"<LOGPATH>\"", repair := some "/repair" }
    else if msiBased then
      { silent := some "/s /v\"/qn /norestart\"",
        silentWithProgress := some "/s /v\"/qb /norestart\"",
        installLocation := some "/v\"INSTALLDIR=\"\"<INSTALLPATH>\"\"\"",
        log := some "/v\"/log \"\"<LOGPATH>\"\"\"" }
    else
      { silent := some "/s", silentWithProgress := some "/s" }
  [{ locale := locale
     architecture := self.architecture
     type := some .exe
     scope := scope
     productCode := productCode
     appsAndFeaturesEntries :=
       [{ displayName := displayName, publisher := publisher,
          displayVersion := version, productCode := productCode,
          upgradeCode := upgradeCode }]
     defaultInstallLocation := installDir
     installModesAll := true
     switches := switches
     expectedReturnCodes := expected_return_codes msiBased }]

/-- End-to-end InstallShield classification: `InstallShield::new` followed by
`installers()`. -/
def installShieldClassify (parseXml : String → Option SetupXml) (pe : PE) (rd : RD) :
    Except InstallShieldError (List Installer) :=
  (installShieldNew parseXml pe rd).map installShieldInstallers

/-! ## Concrete fixtures used by the claim theorems -/

/-- The byte strings of one length (the carrier of the C4 bijection). -/
def byteStrings (n : Nat) : Set (List Nat) := {l | l.length = n ∧ ∀ b ∈ l, b < 256}

/-- The setup.ini payload of the crafted C3 container: every key that the
setup_ini.rs serde model requires, with Product "Foo", ProductCode "ABC" and
a ScriptDriven flag that is neither MSI-based (0/2) nor InstallScript
Unicode (4). -/
def c3IniContent : String :=
  "[Info]\nName=Test\nVersion=1.00.0000\nDiskSpace=8192\n" ++
  "[Startup]\nCmdLine=\nDoMaintenance=n\nDotNetOptionalInstallIfSilent=n\n" ++
  "EnableLangDlg=y\nLauncherName=setup.exe\nLogResults=n\nOnUpgrade=1\n" ++
  "PackageCode=PKG\nPackageName=Test Package\nProduct=Foo\nProductCode=ABC\n" ++
  "ProductVersion=1.0\nScriptDriven=1\nScriptVer=1.0\nSuppressWrongOS=y\n" ++
  "[Languages]\nRequireExactLangMatch=n\nRTLLangs=\nDefault=0x0409\nSupported=0x0409\n"

/-- The payload bytes of the crafted container. -/
def c3IniBytes : List Nat := c3IniContent.data.map Char.toNat

/-- "setup.ini" in UTF-16LE, the crafted entry's file name. -/
def c3NameBytes : List Nat :=
  [115, 0, 101, 0, 116, 0, 117, 0, 112, 0, 46, 0, 105, 0, 110, 0, 105, 0]

/-- The crafted `ISSetupStream` container: the 14-byte magic, one file, header
type 0, 26 reserved bytes, then one stream entry (UTF-16LE name length,
encoded flags 0, reserved, payload size, reserved) followed by the name and
the setup.ini payload. -/
def c3Data : List Nat :=
  [73, 83, 83, 101, 116, 117, 112, 83, 116, 114, 101, 97, 109, 0] ++ u16le 1 ++ u32le 0 ++
  List.replicate 26 0 ++
  u32le c3NameBytes.length ++ u32le 0 ++ [0, 0] ++ u32le c3IniBytes.length ++
  List.replicate 10 0 ++ c3NameBytes ++ c3IniBytes

/-- The PE wrapper of the crafted container: x86 machine, overlay at 0, no
version resources. -/
def c3PE : PE := ⟨0x14c, [], [], some 0, []⟩

/-- The single installer record the crafted C3 container classifies to. -/
def c3Record : Installer :=
  { locale := some 1033
    architecture := .x86
    type := some .exe
    scope := some .machine
    productCode := some "InstallShield_ABC"
    appsAndFeaturesEntries :=
      [{ displayName := some "Foo", publisher := none, displayVersion := some "1.0",
         productCode := some "InstallShield_ABC", upgradeCode := none }]
    defaultInstallLocation := none
    installModesAll := true
    switches := { silent := some "/s", silentWithProgress := some "/s" }
    expectedReturnCodes := COMMON_CODES }

end Komac

namespace Komac

/-! # Theorems -/

theorem rotl4_lt (b : Nat) : rotl4 b < 256 := by
  unfold rotl4
  have h1 : b % 16 < 16 := Nat.mod_lt _ (by norm_num)
  have h2 : b % 256 / 16 < 16 := Nat.div_lt_of_lt_mul (Nat.mod_lt _ (by norm_num))
  omega

theorem xor8_lt (a b : Nat) : xor8 a b < 256 := by
  unfold xor8
  have h : a % 256 < 2 ^ 8 := by
    have := Nat.mod_lt a (show 0 < 256 by norm_num)
    omega
  have h2 : b % 256 < 2 ^ 8 := by
    have := Nat.mod_lt b (show 0 < 256 by norm_num)
    omega
  have := Nat.xor_lt_two_pow h h2
  omega

theorem bnot8_lt (b : Nat) : bnot8 b < 256 := by
  unfold bnot8
  omega

theorem xor8_mod_cancel (a b : Nat) : xor8 a b % 256 = xor8 a b :=
  Nat.mod_eq_of_lt (xor8_lt a b)

theorem xor8_cancel (k c : Nat) : xor8 k (xor8 k c) = c % 256 := by
  have h := Nat.mod_eq_of_lt (xor8_lt k c)
  unfold xor8 at h ⊢
  rw [h, ← Nat.xor_assoc, Nat.xor_self, Nat.zero_xor]

theorem bnot8_bnot8 (b : Nat) : bnot8 (bnot8 b) = b % 256 := by
  unfold bnot8
  omega

theorem rotl4_mod (b : Nat) : rotl4 (b % 256) = rotl4 b := by
  unfold rotl4
  rw [Nat.mod_mod_of_dvd b (by norm_num : (16 : Nat) ∣ 256), Nat.mod_mod_of_dvd b dvd_rfl]

set_option maxRecDepth 4096 in
theorem rotl4_rotl4_lt : ∀ b < 256, rotl4 (rotl4 b) = b := by decide

/-- Double nibble-swap is reduction mod 256. -/
theorem rotl4_rotl4 (b : Nat) : rotl4 (rotl4 b) = b % 256 := by
  rw [← rotl4_mod b, rotl4_rotl4_lt (b % 256) (Nat.mod_lt b (by norm_num))]

theorem decodeByte_encodeByte (k b : Nat) (hb : b < 256) :
    decodeByte k (encodeByte k b) = b := by
  unfold decodeByte encodeByte
  rw [rotl4_rotl4, xor8_mod_cancel, xor8_cancel]
  rw [Nat.mod_eq_of_lt (bnot8_lt b), bnot8_bnot8, Nat.mod_eq_of_lt hb]

theorem encodeByte_decodeByte (k b : Nat) (hb : b < 256) :
    encodeByte k (decodeByte k b) = b := by
  unfold decodeByte encodeByte
  rw [bnot8_bnot8, xor8_mod_cancel, xor8_cancel]
  rw [Nat.mod_eq_of_lt (rotl4_lt b), rotl4_rotl4, Nat.mod_eq_of_lt hb]

theorem decodeSlice_encodeSlice (key : List Nat) (off : Nat) (data : List Nat)
    (h : ∀ b ∈ data, b < 256) :
    decodeSlice key off (encodeSlice key off data) = data := by
  induction data generalizing off with
  | nil => rfl
  | cons b rest ih =>
      simp only [encodeSlice, decodeSlice]
      rw [decodeByte_encodeByte _ _ (h b (List.mem_cons_self b rest)),
        ih (off + 1) (fun x hx => h x (List.mem_cons_of_mem b hx))]

theorem encodeSlice_decodeSlice (key : List Nat) (off : Nat) (data : List Nat)
    (h : ∀ b ∈ data, b < 256) :
    encodeSlice key off (decodeSlice key off data) = data := by
  induction data generalizing off with
  | nil => rfl
  | cons b rest ih =>
      simp only [encodeSlice, decodeSlice]
      rw [encodeByte_decodeByte _ _ (h b (List.mem_cons_self b rest)),
        ih (off + 1) (fun x hx => h x (List.mem_cons_of_mem b hx))]

theorem decodeSlice_length (key : List Nat) (off : Nat) (data : List Nat) :
    (decodeSlice key off data).length = data.length := by
  induction data generalizing off with
  | nil => rfl
  | cons b rest ih => simp only [decodeSlice, List.length_cons, ih]

theorem encodeSlice_length (key : List Nat) (off : Nat) (data : List Nat) :
    (encodeSlice key off data).length = data.length := by
  induction data generalizing off with
  | nil => rfl
  | cons b rest ih => simp only [encodeSlice, List.length_cons, ih]

theorem decodeSlice_mem_lt (key : List Nat) (off : Nat) (data : List Nat) :
    ∀ b ∈ decodeSlice key off data, b < 256 := by
  induction data generalizing off with
  | nil => intro b hb; cases hb
  | cons x rest ih =>
      intro b hb
      simp only [decodeSlice] at hb
      rcases List.mem_cons.mp hb with h | h
      · subst h; exact bnot8_lt _
      · exact ih (off + 1) b h

theorem encodeSlice_mem_lt (key : List Nat) (off : Nat) (data : List Nat) :
    ∀ b ∈ encodeSlice key off data, b < 256 := by
  induction data generalizing off with
  | nil => intro b hb; cases hb
  | cons x rest ih =>
      intro b hb
      simp only [encodeSlice] at hb
      rcases List.mem_cons.mp hb with h | h
      · subst h; exact rotl4_lt _
      · exact ih (off + 1) b h

theorem sliceBytes_length (data : List Nat) (s n : Nat) (l : List Nat)
    (h : sliceBytes data s n = some l) : l.length = n := by
  unfold sliceBytes at h
  split at h
  · cases h
    rw [List.length_take, List.length_drop]
    omega
  · cases h

theorem sliceBytes_pos (data : List Nat) (s n : Nat) (l : List Nat)
    (h : sliceBytes data s n = some l) : s + n ≤ data.length := by
  unfold sliceBytes at h
  split at h
  · assumption
  · cases h

theorem u32le_length (x : Nat) : (u32le x).length = 4 := rfl

theorem decodeU32_u32le (x : Nat) (hx : x < 4294967296) : decodeU32 (u32le x) = x := by
  simp only [decodeU32, u32le, List.getD_cons_zero, List.getD_cons_succ]
  omega

theorem icoDirectory_cons (e p : List Nat) (rest : List (List Nat × List Nat)) (d : Nat) :
    icoDirectory ((e, p) :: rest) d =
      (e.getD 0 0 :: e.getD 1 0 :: e.getD 2 0 :: 0 ::
        ((e.drop 4).take 4 ++ u32le p.length ++ u32le d))
        ++ icoDirectory rest (d + p.length) := by
  simp [icoDirectory, List.append_assoc]

theorem icoDirectory_length (ents : List (List Nat × List Nat))
    (h : ∀ e ∈ ents, (e.1).length = 14) :
    ∀ d, (icoDirectory ents d).length = 16 * ents.length := by
  induction ents with
  | nil => intro d; rfl
  | cons ep rest ih =>
      obtain ⟨e, p⟩ := ep
      intro d
      have he : e.length = 14 := h (e, p) (List.mem_cons_self _ _)
      have hr := ih (fun x hx => h x (List.mem_cons_of_mem _ hx)) (d + p.length)
      rw [icoDirectory_cons]
      simp only [List.length_append, List.length_cons, List.length_take,
        List.length_drop, u32le_length, hr, he, List.length_cons]
      omega

/-- The 16-byte directory block `buildIco` emits for one resolved member with
its data at absolute offset `d`. -/
theorem dirBlock_length (e p : List Nat) (d : Nat) (he : e.length = 14) :
    (e.getD 0 0 :: e.getD 1 0 :: e.getD 2 0 :: 0 ::
      ((e.drop 4).take 4 ++ u32le p.length ++ u32le d)).length = 16 := by
  simp only [List.length_cons, List.length_append, List.length_take,
    List.length_drop, u32le_length, he]
  omega

/-- The parser reads back, position by position, exactly the members that
`buildIco`'s directory and payload area encode, and each 16-byte directory
block holds the copied dimension/color bytes, a zeroed reserved byte, the
copied planes/bit-count bytes, the payload length and the running absolute
offset. `file` is any byte list whose suffix from position `6 + 16 * i` is
the directory for the remaining members `ents` (whose payloads start after
`mid` more bytes) followed by `mid` and the members' payloads. -/
theorem parseIcoAux_build (file : List Nat) (ents : List (List Nat × List Nat)) :
    ∀ (i : Nat) (mid : List Nat),
      (∀ e ∈ ents, (e.1).length = 14) →
      file.length < 4294967296 →
      file.drop (6 + 16 * i) =
        icoDirectory ents (6 + 16 * (i + ents.length) + mid.length) ++ mid
          ++ (ents.map (·.2)).flatten →
      file.length = 6 + 16 * (i + ents.length) + mid.length
          + ((ents.map (·.2)).flatten).length →
      (parseIcoAux file i ents.length =
        some (ents.map fun e => ((e.1).getD 0 0, (e.1).getD 1 0, e.2))) ∧
      (∀ j, j < ents.length →
        sliceBytes file (6 + 16 * (i + j)) 16 =
          some ((ents.getD j ([], [])).1.getD 0 0 :: (ents.getD j ([], [])).1.getD 1 0 ::
            (ents.getD j ([], [])).1.getD 2 0 :: 0 ::
            (((ents.getD j ([], [])).1.drop 4).take 4
              ++ u32le (ents.getD j ([], [])).2.length
              ++ u32le (6 + 16 * (i + ents.length) + mid.length
                  + (((ents.take j).map (fun x => x.2.length)).sum))))) := by
  induction ents with
  | nil =>
      intro i mid _ _ _ _
      exact ⟨rfl, fun j hj => absurd hj (by simp)⟩
  | cons ep rest ih =>
      obtain ⟨e, p⟩ := ep
      intro i mid hlen hbound hdrop hflen
      have he : e.length = 14 := hlen (e, p) (List.mem_cons_self _ _)
      have hrest : ∀ x ∈ rest, (x.1).length = 14 :=
        fun x hx => hlen x (List.mem_cons_of_mem _ hx)
      simp only [List.length_cons, List.map_cons, List.flatten_cons,
        List.length_append] at hdrop hflen
      -- the head member's directory block and data offset
      have hdir : file.drop (6 + 16 * i)
          = (e.getD 0 0 :: e.getD 1 0 :: e.getD 2 0 :: 0 ::
              ((e.drop 4).take 4 ++ u32le p.length
                ++ u32le (6 + 16 * (i + (rest.length + 1)) + mid.length)))
            ++ (icoDirectory rest
                  (6 + 16 * (i + (rest.length + 1)) + mid.length + p.length)
                ++ (mid ++ (p ++ (rest.map (·.2)).flatten))) := by
        rw [hdrop, icoDirectory_cons]
        simp [List.append_assoc]
      have hblockLen := dirBlock_length e p
        (6 + 16 * (i + (rest.length + 1)) + mid.length) he
      have hdirRestLen := icoDirectory_length rest hrest
        (6 + 16 * (i + (rest.length + 1)) + mid.length + p.length)
      -- slice of the head directory block
      have hslice1 : sliceBytes file (6 + 16 * i) 16
          = some (e.getD 0 0 :: e.getD 1 0 :: e.getD 2 0 :: 0 ::
              ((e.drop 4).take 4 ++ u32le p.length
                ++ u32le (6 + 16 * (i + (rest.length + 1)) + mid.length))) := by
        unfold sliceBytes
        rw [if_pos (by omega)]
        rw [hdir]
        exact congrArg some (List.take_left' hblockLen)
      -- the block's length and offset fields
      have hBlen : ((e.drop 4).take 4).length = 4 := by
        rw [List.length_take, List.length_drop, he]
        omega
      have hdrop12 : ((e.getD 0 0 :: e.getD 1 0 :: e.getD 2 0 :: 0 ::
            ((e.drop 4).take 4 ++ u32le p.length
              ++ u32le (6 + 16 * (i + (rest.length + 1)) + mid.length))).drop 12).take 4
          = u32le (6 + 16 * (i + (rest.length + 1)) + mid.length) := by
        show ((((e.drop 4).take 4 ++ u32le p.length
            ++ u32le (6 + 16 * (i + (rest.length + 1)) + mid.length)).drop 8).take 4) = _
        have h8 : ((e.drop 4).take 4 ++ u32le p.length).length = 8 := by
          rw [List.length_append, hBlen, u32le_length]
        rw [List.drop_left' h8]
        have h4 := u32le_length (6 + 16 * (i + (rest.length + 1)) + mid.length)
        rw [← h4, List.take_length]
      have hdrop8 : ((e.getD 0 0 :: e.getD 1 0 :: e.getD 2 0 :: 0 ::
            ((e.drop 4).take 4 ++ u32le p.length
              ++ u32le (6 + 16 * (i + (rest.length + 1)) + mid.length))).drop 8).take 4
          = u32le p.length := by
        show ((((e.drop 4).take 4 ++ u32le p.length
            ++ u32le (6 + 16 * (i + (rest.length + 1)) + mid.length)).drop 4).take 4) = _
        rw [List.append_assoc, List.drop_left' hBlen]
        exact List.take_left' (u32le_length p.length)
      -- decoded offset and length
      have hdecOff : decodeU32 (u32le (6 + 16 * (i + (rest.length + 1)) + mid.length))
          = 6 + 16 * (i + (rest.length + 1)) + mid.length :=
        decodeU32_u32le _ (by omega)
      have hdecLen : decodeU32 (u32le p.length) = p.length :=
        decodeU32_u32le _ (by omega)
      -- the payload slice
      have hdropD : file.drop (6 + 16 * (i + (rest.length + 1)) + mid.length)
          = p ++ (rest.map (·.2)).flatten := by
        rw [(by omega : 6 + 16 * (i + (rest.length + 1)) + mid.length
              = (6 + 16 * i) + (16 + (16 * rest.length + mid.length))),
          ← List.drop_drop, hdir]
        have hregroup : (e.getD 0 0 :: e.getD 1 0 :: e.getD 2 0 :: 0 ::
              ((e.drop 4).take 4 ++ u32le p.length
                ++ u32le (6 + 16 * (i + (rest.length + 1)) + mid.length)))
            ++ (icoDirectory rest
                  (6 + 16 * (i + (rest.length + 1)) + mid.length + p.length)
                ++ (mid ++ (p ++ (rest.map (·.2)).flatten)))
            = (((e.getD 0 0 :: e.getD 1 0 :: e.getD 2 0 :: 0 ::
                  ((e.drop 4).take 4 ++ u32le p.length
                    ++ u32le (6 + 16 * (i + (rest.length + 1)) + mid.length)))
                ++ icoDirectory rest
                    (6 + 16 * (i + (rest.length + 1)) + mid.length + p.length))
                ++ mid)
              ++ (p ++ (rest.map (·.2)).flatten) := by
          simp [List.append_assoc]
        rw [hregroup]
        exact List.drop_left' (by
          simp only [List.length_append, hblockLen, hdirRestLen]
          omega)
      have hslice2 : sliceBytes file
            (6 + 16 * (i + (rest.length + 1)) + mid.length) p.length = some p := by
        unfold sliceBytes
        rw [if_pos (by omega)]
        rw [hdropD]
        exact congrArg some (List.take_left p ((rest.map (·.2)).flatten))
      -- the tail recursion
      have hdrop' : file.drop (6 + 16 * (i + 1)) =
          icoDirectory rest (6 + 16 * ((i + 1) + rest.length) + (mid ++ p).length)
            ++ (mid ++ p) ++ (rest.map (·.2)).flatten := by
        rw [(by omega : 6 + 16 * (i + 1) = (6 + 16 * i) + 16),
          ← List.drop_drop, hdir, List.drop_left' hblockLen,
          (by simp only [List.length_append]; omega :
            6 + 16 * ((i + 1) + rest.length) + (mid ++ p).length
              = 6 + 16 * (i + (rest.length + 1)) + mid.length + p.length)]
        simp [List.append_assoc]
      have hflen' : file.length = 6 + 16 * ((i + 1) + rest.length) + (mid ++ p).length
          + ((rest.map (·.2)).flatten).length := by
        simp only [List.length_append]
        omega
      have hih := ih (i + 1) (mid ++ p) hrest hbound hdrop' hflen'
      constructor
      · -- the parse result
        show parseIcoAux file i (rest.length + 1) = _
        simp only [parseIcoAux]
        rw [hslice1]
        simp only [Option.some_bind]
        rw [hdrop12, hdrop8, hdecOff, hdecLen, hslice2]
        simp only [Option.some_bind]
        rw [hih.1]
        simp only [Option.map_some', List.map_cons]
        rfl
      · -- the directory blocks
        intro j hj
        match j with
        | 0 =>
            simp only [List.getD_cons_zero, List.take_zero, List.map_nil,
              List.sum_nil, Nat.add_zero, List.length_cons]
            exact hslice1
        | j + 1 =>
            have hj' : j < rest.length := by
              simp only [List.length_cons] at hj
              omega
            have hj2 := hih.2 j hj'
            rw [(by omega : 6 + 16 * (i + (j + 1)) = 6 + 16 * ((i + 1) + j)), hj2]
            simp only [List.getD_cons_succ, List.take_succ_cons, List.map_cons,
              List.sum_cons, List.length_cons]
            rw [(by simp only [List.length_append]; omega :
              6 + 16 * ((i + 1) + rest.length) + (mid ++ p).length
                  + ((rest.take j).map (fun x => x.2.length)).sum
                = 6 + 16 * (i + (rest.length + 1)) + mid.length
                  + (p.length + ((rest.take j).map (fun x => x.2.length)).sum))]

/-- Every resolved member's group-directory entry has exactly 14 bytes. -/
theorem groupResolvedEntries_len (lookup : Nat → Option (List Nat)) (group : List Nat)
    (iconCount : Nat) :
    ∀ e ∈ groupResolvedEntries lookup group iconCount, (e.1).length = 14 := by
  intro e he
  unfold groupResolvedEntries at he
  rcases List.mem_filterMap.mp he with ⟨j, _, hj⟩
  rcases hslice : sliceBytes group (6 + j * 14) 14 with _ | entry
  · rw [hslice] at hj; cases hj
  · rw [hslice] at hj
    simp only [Option.some_bind] at hj
    rcases hlook : lookup (entry.getD 12 0 + 256 * entry.getD 13 0) with _ | dta
    · rw [hlook] at hj; cases hj
    · rw [hlook] at hj
      simp only [Option.map_some'] at hj
      cases hj
      exact sliceBytes_length group _ 14 entry hslice

/-! ## Claim theorems -/

/-- C4: for a non-empty entry filename, the InstallShield payload decode with
the filename-derived rotating key is a bijection on the byte strings of each
length; a (plaintext, encoded, filename) triple with `encoded` produced by
the inverse transform decodes back to the plaintext; and the decode is not
self-inverse (witnessed by the filename "a", byte 0x00). -/
theorem claim_C4_decode_bijection :
    (∀ (name : List Nat) (n : Nat), name ≠ [] →
      Set.BijOn (decodeSlice (keyFromName name) 0) (byteStrings n) (byteStrings n)) ∧
    (∀ (name plaintext : List Nat), name ≠ [] → (∀ b ∈ plaintext, b < 256) →
      decodeSlice (keyFromName name) 0 (encodeSlice (keyFromName name) 0 plaintext)
        = plaintext) ∧
    decodeSlice (keyFromName [97]) 0 (decodeSlice (keyFromName [97]) 0 [0]) ≠ [0] := by
  refine ⟨?_, ?_, by decide⟩
  · intro name n _
    have hinv : Set.InvOn (encodeSlice (keyFromName name) 0)
        (decodeSlice (keyFromName name) 0) (byteStrings n) (byteStrings n) :=
      ⟨fun x hx => encodeSlice_decodeSlice _ 0 x hx.2,
       fun x hx => decodeSlice_encodeSlice _ 0 x hx.2⟩
    exact hinv.bijOn
      (fun x hx => ⟨by rw [decodeSlice_length]; exact hx.1, decodeSlice_mem_lt _ _ _⟩)
      (fun x hx => ⟨by rw [encodeSlice_length]; exact hx.1, encodeSlice_mem_lt _ _ _⟩)
  · intro name plaintext _ hbytes
    exact decodeSlice_encodeSlice _ 0 plaintext hbytes

/-- C4 witness: the filename "a" and plaintext [1, 2, 3] round-trip through
encode then decode. -/
theorem claim_C4_decode_bijection_witness :
    decodeSlice (keyFromName [97]) 0 (encodeSlice (keyFromName [97]) 0 [1, 2, 3])
      = [1, 2, 3] :=
  claim_C4_decode_bijection.2.1 [97] [1, 2, 3] (by decide) (by decide)

/-- C6: `Int64Op` evaluation uses two's-complement wraparound (`+` over the
i64 maximum wraps to the minimum; `+` over (5, 5) gives "10"), `>>>` is a
logical unsigned right shift (so over (`i64::MIN`, 1) it yields
4611686018427387904) while `>>` is arithmetic (same operands yield the
negative half), and `/` or `%` with a zero second operand return "0" instead
of trapping. -/
theorem claim_C6_int64op_semantics :
    evaluate_operation "+" 5 (some 5) = "10" ∧
    evaluate_operation "+" 9223372036854775807 (some 1) = "-9223372036854775808" ∧
    evaluate_operation ">>>" (-9223372036854775808) (some 1) = "4611686018427387904" ∧
    evaluate_operation ">>" (-9223372036854775808) (some 1) = "-4611686018427387904" ∧
    (∀ a : Int, evaluate_operation "/" a (some 0) = "0") ∧
    (∀ a : Int, evaluate_operation "%" a (some 0) = "0") := by
  refine ⟨by decide, by decide, by decide, by decide, fun a => rfl, fun a => rfl⟩

/-- C9: register addressing over the flat 20-slot space: destination `"R3"`
and the literal index `13` resolve to the same slot 13 (the secondary R-bank
is offset by +10), `"r3"` resolves to slot 3, and the operand stack is LIFO:
popping directly after pushing returns the pushed value and restores the
state. -/
theorem claim_C9_register_addressing :
    parseRegister "R3" = some 13 ∧
    parseRegisterName "13" = some 13 ∧
    parseRegister "R3" = parseRegisterName "13" ∧
    parseRegister "r3" = some 3 ∧
    (∀ (st : NsisState) (v : String), (st.push v).pop = (some v, st)) := by
  refine ⟨by decide, by decide, by decide, by decide, fun st v => rfl⟩

/-- C8: the claim says `System::Call` evaluation terminates and never returns
an error for every plugin-call string; the code, however, panics on the
plugin-call string `"*)(" `: `handle_struct_operation` slices
`api_call[paren_start + 1..paren_end]` where the first `(` (index 2) lies
after the last `)` (index 1), an out-of-bounds slice. The model returns
`none` exactly on that panic. -/
theorem claim_C8_call_panics (st : NsisState) :
    systemCallEvaluate st "*)(" = none := rfl

/-- C1: `Exe::new` runs the probes in the fixed order AdvancedInstaller,
Burn, Inno, NSIS, with the generic fallback last; at every position a
recognized probe ends classification with its handle, a `NotThisFormat`
outcome moves to the next probe, and any other probe error aborts the whole
classification with that error. -/
theorem claim_C1_probe_order (p : ExeProbes) (pe : PE) :
    (∀ a, p.advanced = .recognized a → Exe.new p pe = .ok (.advancedInstaller a)) ∧
    (∀ e, p.advanced = .failure e → Exe.new p pe = .error e) ∧
    (p.advanced = .notThisFormat →
      (∀ b, p.burn = .recognized b → Exe.new p pe = .ok (.burn b)) ∧
      (∀ e, p.burn = .failure e → Exe.new p pe = .error e) ∧
      (p.burn = .notThisFormat →
        (∀ i, p.inno = .recognized i → Exe.new p pe = .ok (.inno i)) ∧
        (∀ e, p.inno = .failure e → Exe.new p pe = .error e) ∧
        (p.inno = .notThisFormat →
          (∀ n, p.nsis = .recognized n → Exe.new p pe = .ok (.nsis n)) ∧
          (∀ e, p.nsis = .failure e → Exe.new p pe = .error e) ∧
          (p.nsis = .notThisFormat →
            Exe.new p pe = .ok (.generic (genericInstaller pe)))))) := by
  obtain ⟨adv, burn, inno, nsis⟩ := p
  refine ⟨?_, ?_, ?_⟩
  · rintro a rfl; rfl
  · rintro e rfl; rfl
  · rintro rfl
    refine ⟨?_, ?_, ?_⟩
    · rintro b rfl; rfl
    · rintro e rfl; rfl
    · rintro rfl
      refine ⟨?_, ?_, ?_⟩
      · rintro i rfl; rfl
      · rintro e rfl; rfl
      · rintro rfl
        refine ⟨?_, ?_, ?_⟩
        · rintro n rfl; rfl
        · rintro e rfl; rfl
        · rintro rfl; rfl

/-- C1 witness: with the first two probes declining, a failing Inno probe
aborts the whole classification with its error. -/
theorem claim_C1_probe_order_witness :
    Exe.new ⟨.notThisFormat, .notThisFormat, .failure "io error",
      .recognized ⟨[]⟩⟩ ⟨0x14c, [], [], none, []⟩ = .error "io error" :=
  ((((claim_C1_probe_order ⟨.notThisFormat, .notThisFormat, .failure "io error",
      .recognized ⟨[]⟩⟩ ⟨0x14c, [], [], none, []⟩).2.2 rfl).2.2 rfl).2.1) "io error" rfl

/-- C7: when every technology probe declines, classification yields exactly
one Generic record and never a hard error; its architecture is the PE
machine type's architecture, and its kind is Exe exactly when some
`FileDescription` or `OriginalFilename` version value contains one of the
installer keywords case-insensitively, Portable otherwise. -/
theorem claim_C7_generic_fallback (pe : PE) :
    Exe.new ⟨.notThisFormat, .notThisFormat, .notThisFormat, .notThisFormat⟩ pe
      = .ok (.generic (genericInstaller pe)) ∧
    (Exe.generic (genericInstaller pe)).installers = [genericInstaller pe] ∧
    (genericInstaller pe).architecture = fromMachine pe.machine ∧
    ((genericInstaller pe).type = some .exe ↔
      ∃ kv ∈ pe.version_info_list,
        (kv.key = "FileDescription" ∨ kv.key = "OriginalFilename") ∧
        ∃ v, kv.value = some v ∧
          ∃ k ∈ BASIC_INSTALLER_KEYWORDS, containsSubstr (toLowerAscii v) k = true) ∧
    ((genericInstaller pe).type = some .exe ∨ (genericInstaller pe).type = some .portable) := by
  have hexists : installerKeywordMatch pe = true ↔
      ∃ kv ∈ pe.version_info_list,
        (kv.key = "FileDescription" ∨ kv.key = "OriginalFilename") ∧
        ∃ v, kv.value = some v ∧
          ∃ k ∈ BASIC_INSTALLER_KEYWORDS, containsSubstr (toLowerAscii v) k = true := by
    unfold installerKeywordMatch
    rw [List.any_eq_true]
    constructor
    · rintro ⟨kv, hmem, hk⟩
      rw [Bool.and_eq_true] at hk
      rcases hb : kv.value with _ | v
      · rw [hb] at hk
        exact absurd hk.2 (by simp)
      · rw [hb] at hk
        have h1 : kv.key = "FileDescription" ∨ kv.key = "OriginalFilename" := by
          have h2 := hk.1
          simpa using h2
        exact ⟨kv, hmem, h1, v, hb, by simpa using hk.2⟩
    · rintro ⟨kv, hmem, hkey, v, hv, k, hkmem, hsub⟩
      refine ⟨kv, hmem, ?_⟩
      rw [Bool.and_eq_true, hv]
      exact ⟨by rcases hkey with h | h <;> simp [h], by simpa using ⟨k, hkmem, hsub⟩⟩
  refine ⟨rfl, rfl, rfl, ?_, ?_⟩
  · rw [← hexists]
    cases hk : installerKeywordMatch pe <;> simp [genericInstaller, hk]
  · cases hk : installerKeywordMatch pe
    · exact Or.inr (by simp [genericInstaller, hk])
    · exact Or.inl (by simp [genericInstaller, hk])

/-- C10: on the exe route the file-name architecture hint applies only to
x86-detected records: a lowercased file name containing "arm64" forces Arm64
(taking precedence over "x64"), otherwise one containing "x64" forces X64,
and a record whose detected architecture is not x86 is unchanged. -/
theorem claim_C10_arch_hint (fileName : String) (i : Installer) :
    (i.architecture ≠ .x86 → applyArchHint fileName i = i) ∧
    (i.architecture = .x86 → containsSubstr (toLowerAscii fileName) "arm64" = true →
      applyArchHint fileName i = { i with architecture := .arm64 }) ∧
    (i.architecture = .x86 → containsSubstr (toLowerAscii fileName) "arm64" = false →
      containsSubstr (toLowerAscii fileName) "x64" = true →
      applyArchHint fileName i = { i with architecture := .x64 }) ∧
    (i.architecture = .x86 → containsSubstr (toLowerAscii fileName) "arm64" = false →
      containsSubstr (toLowerAscii fileName) "x64" = false →
      applyArchHint fileName i = i) := by
  refine ⟨fun h => ?_, fun h h1 => ?_, fun h h1 h2 => ?_, fun h h1 h2 => ?_⟩ <;>
    simp [applyArchHint, h]
  · intro hc; rw [h1] at hc; cases hc
  · simp [h1, h2]
  · simp [h1, h2]

/-- C10 witness: an x86 record with both "ARM64" and "x64" in the file name
is forced to Arm64. -/
theorem claim_C10_arch_hint_witness :
    applyArchHint "App-ARM64-x64.exe" { architecture := .x86 }
      = { architecture := Architecture.arm64 } :=
  (claim_C10_arch_hint "App-ARM64-x64.exe" { architecture := .x86 }).2.1 rfl (by decide)

/-- C2: whenever the InstallShield file-table stage succeeds (the overlay
header is structurally valid under any of the three layout heuristics) but
none of setup.ini, setup.iss, Setup.xml is found and successfully parsed,
`InstallShield::new` returns the soft `NotInstallShieldFile` outcome rather
than a hard failure. -/
theorem claim_C2_soft_decline (parseXml : String → Option SetupXml) (pe : PE)
    (rd : RD) (files : List ISFile) (rd' : RD)
    (hfiles : installShieldFiles pe rd = .ok (files, rd'))
    (hini : findAndParse files rd' "setup.ini" parseSetupIniStr = none)
    (hiss : findAndParse files rd' "setup.iss" parseSetupIssStr = none)
    (hxml : findAndParse files rd' "Setup.xml" parseXml = none) :
    installShieldNew parseXml pe rd = .error .notInstallShieldFile := by
  unfold installShieldNew
  rw [hfiles]
  simp [Except.bind, hini, hiss, hxml]

/-- C2 witness: a 20-byte overlay holding only an `ISSetupStream` header with
zero files is structurally valid, has no payloads, and declines softly. -/
theorem claim_C2_soft_decline_witness :
    installShieldFiles ⟨0x14c, [], [], some 0, []⟩
        ⟨[73, 83, 83, 101, 116, 117, 112, 83, 116, 114, 101, 97, 109, 0,
          0, 0, 0, 0, 0, 0], 0⟩ =
      .ok ([], ⟨[73, 83, 83, 101, 116, 117, 112, 83, 116, 114, 101, 97, 109, 0,
          0, 0, 0, 0, 0, 0], 46⟩) ∧
    installShieldNew (fun _ => none) ⟨0x14c, [], [], some 0, []⟩
        ⟨[73, 83, 83, 101, 116, 117, 112, 83, 116, 114, 101, 97, 109, 0,
          0, 0, 0, 0, 0, 0], 0⟩ = .error .notInstallShieldFile :=
  ⟨rfl,
   claim_C2_soft_decline (fun _ => none) ⟨0x14c, [], [], some 0, []⟩
     ⟨[73, 83, 83, 101, 116, 117, 112, 83, 116, 114, 101, 97, 109, 0,
       0, 0, 0, 0, 0, 0], 0⟩ []
     ⟨[73, 83, 83, 101, 116, 117, 112, 83, 116, 114, 101, 97, 109, 0,
       0, 0, 0, 0, 0, 0], 46⟩ rfl rfl rfl rfl⟩

set_option maxRecDepth 100000 in
/-- C5: for every icon group (4 ≤ group bytes so the header prefix is whole,
the member count within u16 range, and the rebuilt file within u32
offsets), the reconstructor emits the group's copied 4-byte header prefix,
the member count, one 16-byte directory entry per resolved member with
dimensions/color copied, the reserved byte zeroed, planes/bit-count copied,
the payload length, and the data offset `6 + 16 * n` plus all preceding
payload lengths, followed by the payloads in order — and the emitted file
parses back into the resolved images with byte-identical pixel data. -/
theorem claim_C5_icon_reconstruction (group : List Nat) (lookup : Nat → Option (List Nat))
    (iconCount : Nat) (entries : List (List Nat × List Nat))
    (hentries : entries = groupResolvedEntries lookup group iconCount)
    (hgroup : 4 ≤ group.length) (hcount : iconCount < 65536)
    (hsize : 6 + 16 * entries.length + ((entries.map (fun e => e.2.length)).sum)
      < 4294967296) :
    (buildIco group entries).take 4 = group.take 4 ∧
    readU16At (buildIco group entries) 4 = some entries.length ∧
    (∀ j, j < entries.length →
      sliceBytes (buildIco group entries) (6 + 16 * j) 16 =
        some ((entries.getD j ([], [])).1.getD 0 0 :: (entries.getD j ([], [])).1.getD 1 0 ::
          (entries.getD j ([], [])).1.getD 2 0 :: 0 ::
          (((entries.getD j ([], [])).1.drop 4).take 4
            ++ u32le (entries.getD j ([], [])).2.length
            ++ u32le (6 + 16 * entries.length
                + ((entries.take j).map (fun x => x.2.length)).sum)))) ∧
    parseIco (buildIco group entries) =
      some (entries.map fun e => ((e.1).getD 0 0, (e.1).getD 1 0, e.2)) := by
  have hlen14 : ∀ e ∈ entries, (e.1).length = 14 := by
    rw [hentries]; exact groupResolvedEntries_len lookup group iconCount
  have hn : entries.length < 65536 := by
    have h1 : entries.length ≤ iconCount := by
      rw [hentries]
      unfold groupResolvedEntries
      calc ((List.range iconCount).filterMap _).length
          ≤ (List.range iconCount).length := List.length_filterMap_le _ _
        _ = iconCount := List.length_range iconCount
    omega
  have htake4 : (group.take 4).length = 4 := by
    rw [List.length_take]; omega
  have hflatlen : ((entries.map (·.2)).flatten).length
      = (entries.map (fun e => e.2.length)).sum := by
    rw [List.length_flatten, List.map_map]
    rfl
  have hdirlen := icoDirectory_length entries hlen14 (6 + entries.length * 16)
  have hfilelen : (buildIco group entries).length
      = 6 + 16 * entries.length + (entries.map (fun e => e.2.length)).sum := by
    unfold buildIco
    simp only [List.length_append, htake4, hdirlen, hflatlen, u16le]
    simp only [List.length_cons, List.length_nil]
  have hheadlen : (group.take 4 ++ u16le entries.length).length = 6 := by
    rw [List.length_append, htake4]
    rfl
  have hdrop6 : (buildIco group entries).drop (6 + 16 * 0) =
      icoDirectory entries (6 + 16 * (0 + entries.length) + ([] : List Nat).length)
        ++ [] ++ (entries.map (·.2)).flatten := by
    show (buildIco group entries).drop 6 = _
    unfold buildIco
    rw [(by simp [List.append_assoc] :
      group.take 4 ++ u16le entries.length
          ++ icoDirectory entries (6 + entries.length * 16)
          ++ (entries.map (·.2)).flatten
        = (group.take 4 ++ u16le entries.length)
          ++ (icoDirectory entries (6 + entries.length * 16)
              ++ (entries.map (·.2)).flatten)),
      List.drop_left' hheadlen,
      (by simp only [List.length_nil, Nat.zero_add]; omega :
        6 + entries.length * 16 = 6 + 16 * (0 + entries.length)
          + ([] : List Nat).length)]
    simp
  have hflen0 : (buildIco group entries).length
      = 6 + 16 * (0 + entries.length) + ([] : List Nat).length
        + ((entries.map (·.2)).flatten).length := by
    rw [hfilelen, hflatlen]
    simp
  have hbound : (buildIco group entries).length < 4294967296 := by
    rw [hfilelen]; exact hsize
  have hmain := parseIcoAux_build (buildIco group entries) entries 0 [] hlen14
    hbound hdrop6 hflen0
  have hu16 : readU16At (buildIco group entries) 4 = some entries.length := by
    unfold readU16At sliceBytes
    rw [if_pos (by omega)]
    have hdrop4 : (buildIco group entries).drop 4
        = u16le entries.length ++ (icoDirectory entries (6 + entries.length * 16)
            ++ (entries.map (·.2)).flatten) := by
      unfold buildIco
      rw [(by simp [List.append_assoc] :
        group.take 4 ++ u16le entries.length
            ++ icoDirectory entries (6 + entries.length * 16)
            ++ (entries.map (·.2)).flatten
          = group.take 4 ++ (u16le entries.length
            ++ (icoDirectory entries (6 + entries.length * 16)
                ++ (entries.map (·.2)).flatten))),
        List.drop_left' htake4]
    rw [hdrop4]
    have htake2 : (u16le entries.length ++ (icoDirectory entries (6 + entries.length * 16)
        ++ (entries.map (·.2)).flatten)).take 2 = u16le entries.length :=
      List.take_left' rfl
    rw [htake2]
    simp only [u16le, Option.map_some', List.getD_cons_zero, List.getD_cons_succ]
    congr 1
    omega
  refine ⟨?_, hu16, ?_, ?_⟩
  · unfold buildIco
    rw [(by simp [List.append_assoc] :
      group.take 4 ++ u16le entries.length
          ++ icoDirectory entries (6 + entries.length * 16)
          ++ (entries.map (·.2)).flatten
        = group.take 4 ++ (u16le entries.length
          ++ (icoDirectory entries (6 + entries.length * 16)
              ++ (entries.map (·.2)).flatten)))]
    exact List.take_left' htake4
  · intro j hj
    have := hmain.2 j hj
    rw [(by omega : 6 + 16 * j = 6 + 16 * (0 + j)), this]
    rw [(by simp :
      6 + 16 * (0 + entries.length) + ([] : List Nat).length
          + ((entries.take j).map (fun x => x.2.length)).sum
        = 6 + 16 * entries.length + ((entries.take j).map (fun x => x.2.length)).sum)]
  · unfold parseIco
    rw [hu16]
    simp only [Option.some_bind]
    exact hmain.1

set_option maxRecDepth 100000 in
/-- C5 witness: a one-member group whose entry resolves id 1 to the payload
[9, 8, 7] rebuilds into a file that parses back to that payload with the
entry's dimension bytes. -/
theorem claim_C5_icon_reconstruction_witness :
    parseIco (buildIco [0, 0, 1, 0, 1, 0, 16, 16, 2, 0, 1, 0, 32, 0, 0, 0, 0, 0, 1, 0]
        [([16, 16, 2, 0, 1, 0, 32, 0, 0, 0, 0, 0, 1, 0], [9, 8, 7])]) =
      some [(16, 16, [9, 8, 7])] :=
  (claim_C5_icon_reconstruction
    [0, 0, 1, 0, 1, 0, 16, 16, 2, 0, 1, 0, 32, 0, 0, 0, 0, 0, 1, 0]
    (fun id => if id = 1 then some [9, 8, 7] else none) 1
    [([16, 16, 2, 0, 1, 0, 32, 0, 0, 0, 0, 0, 1, 0], [9, 8, 7])]
    (by decide) (by decide) (by decide) (by decide)).2.2.2

set_option maxRecDepth 100000 in
/-- C3: the crafted `ISSetupStream` container whose file table holds one
`setup.ini` entry with Product "Foo" and ProductCode "ABC" classifies, for
every external Setup.xml deserializer, to exactly one installer record whose
product code is "InstallShield_ABC" and whose ARP display name is "Foo". -/
theorem claim_C3_end_to_end (parseXml : String → Option SetupXml) :
    installShieldClassify parseXml c3PE ⟨c3Data, 0⟩ = .ok [c3Record] ∧
    c3Record.productCode = some "InstallShield_ABC" ∧
    c3Record.appsAndFeaturesEntries.map (·.displayName) = [some "Foo"] :=
  ⟨rfl, rfl, rfl⟩

end Komac
